import Mathlib

/-!
# Verification of the embroidery digitization core

Shallow embedding of the stitch-generation pipeline and the DST/EXP binary
encoders of the repository (sources: src/unnamed/part_000 — the digitizer,
src/unnamed/part_001 — the shared types, src/services/dstExporter.ts and the
EXP encoder half of src/services/vtracerService.ts), together with proofs and
refutations of the frozen specification claims.

Conventions of the embedding:
* JavaScript numbers are modelled as exact real numbers (`ℝ`); quantized
  embroidery coordinates, byte values and deltas are `ℤ`/`ℕ`.
* `Math.round` is `jsRound x = ⌊x + 1/2⌋` (round half toward +∞, as in JS).
* Bitwise `|=` on bytes is `Nat.lor`; every flag sets a distinct bit.
* Fallible or growing loops (`while` with a real-valued counter) are modelled
  by an explicit iteration count that is exact whenever the loop terminates in
  the source; the one divergent configuration (non-positive spacing) of the
  source is noted at each such definition.
-/

namespace Emb

/-- A 2-D point in millimetres (source: interface Point of part_001). -/
@[ext]
structure Point where
  x : ℝ
  y : ℝ

/-- The kind tag of a stitch command (source: the type field of
interface Stitch in part_001); the end-of-design marker is called
ending because end is a Lean keyword. -/
inductive StitchKind where
  | stitch
  | jump
  | colorChange
  | trim
  | ending
deriving DecidableEq, Repr

/-- One stitch command (source: interface Stitch of part_001). The optional
TS fields carry defaults. -/
structure Stitch where
  x : ℝ
  y : ℝ
  type : StitchKind
  colorIndex : ℕ := 0
  hexColor : String := ""
  isStructure : Bool := false

/-- A colored vector layer (source: interface VectorLayer of part_001). -/
structure VectorLayer where
  color : String
  paths : List (List Point)

/-- The processing configuration (source: interface ProcessingConfig of
part_001); fields irrelevant to the digitizing core (designStyle, widthMm,
colorCount) are kept for fidelity. -/
structure ProcessingConfig where
  designStyle : String := "patch_line"
  widthMm : ℝ := 100
  stitchType : String := "running"
  densityMm : ℝ := 0.4
  satinColumnWidthMm : ℝ := 2
  pullCompensationMm : ℝ := 0
  enableUnderlay : Bool := true
  tatamiAngle : ℝ := 0
  maxStitchLengthMm : ℝ := 2.5
  minStitchLengthMm : ℝ := 0.3
  trimJumpDistanceMm : ℝ := 2
  colorCount : ℕ := 1

/-! ## Geometry helpers (source: part_000 lines 20-55) -/

/-- Euclidean distance (source: dist, part_000 line 23). -/
noncomputable def dist (p q : Point) : ℝ :=
  Real.sqrt ((p.x - q.x) ^ 2 + (p.y - q.y) ^ 2)

/-- Squared distance (source: distSq, part_000 line 26). -/
def distSq (p q : Point) : ℝ := (p.x - q.x) ^ 2 + (p.y - q.y) ^ 2

/-- Rotation by an angle in radians (source: rotatePoint, part_000
line 28). -/
noncomputable def rotatePoint (p : Point) (angleRad : ℝ) : Point :=
  ⟨p.x * Real.cos angleRad - p.y * Real.sin angleRad,
   p.x * Real.sin angleRad + p.y * Real.cos angleRad⟩

/-- Linear interpolation (source: interpolatePoints, part_000 line 32). -/
def interpolatePoints (p q : Point) (t : ℝ) : Point :=
  ⟨p.x + (q.x - p.x) * t, p.y + (q.y - p.y) * t⟩

/-- Normalization to unit length, zero vector fixed (source: normalize,
part_000 line 37). -/
noncomputable def normalize (p : Point) : Point :=
  let len := Real.sqrt (p.x * p.x + p.y * p.y)
  if len = 0 then ⟨0, 0⟩ else ⟨p.x / len, p.y / len⟩

/-- Pointwise sum (source: addPoints, part_000 line 42). -/
def addPoints (p q : Point) : Point := ⟨p.x + q.x, p.y + q.y⟩

/-- Pointwise difference (source: subPoints, part_000 line 43). -/
def subPoints (p q : Point) : Point := ⟨p.x - q.x, p.y - q.y⟩

/-- Scalar multiple (source: scalePoint, part_000 line 44). -/
def scalePoint (p : Point) (s : ℝ) : Point := ⟨p.x * s, p.y * s⟩

/-- Dot product (source: dotProduct, part_000 line 45). -/
def dotProduct (p q : Point) : ℝ := p.x * q.x + p.y * q.y

/-- JavaScript Math.round: round half toward positive infinity. -/
noncomputable def jsRound (x : ℝ) : ℤ := ⌊x + 1 / 2⌋

/-! ## The Tajima 3-byte record encoder (source: dstExporter.ts lines 14-61)

The encoder works on the already-quantized integer deltas, so it is
modelled exactly, over `ℤ` and `ℕ`. A record is the byte triple
(b0, b1, b2). -/

/-- The DST record kind selector passed to the encoder (source: the type
argument of encodeTajimaStitch). -/
inductive DstKind where
  | stitch
  | jump
  | stop
  | ending
deriving DecidableEq, Repr

/-- One greedy step of the bit mapping: if the running residual v satisfies
the positive (resp. negative) test against weight w, set bit pb (resp. nb)
and decrement (resp. increment) the residual by w. Returns the new residual
and the bits contributed. Mirrors one pair of adjacent if statements of
encodeTajimaStitch. -/
def tajStep (v : ℤ) (w : ℤ) (pbit nbit : ℕ) : ℤ × ℕ :=
  if v ≥ w then (v - w, pbit)
  else if v ≤ -w then (v + w, nbit)
  else (v, 0)

/-- The byte triple produced by the Tajima encoder
(source: encodeTajimaStitch, dstExporter.ts lines 14-61). The greedy weight
order 1, 9, 3, 27, 81 and the exact bit positions follow the source. -/
def encodeTajimaStitch (dx dy : ℤ) (k : DstKind) : ℕ × ℕ × ℕ :=
  let ctrl : ℕ :=
    (if k = DstKind.jump ∨ k = DstKind.stop ∨ k = DstKind.ending
      then 0x80 else 0) |||
    (if k = DstKind.stop ∨ k = DstKind.ending then 0x40 else 0)
  -- Y bits, in source order
  let s1 := tajStep dy 1 0x01 0x02
  let s2 := tajStep s1.1 9 0x04 0x08
  let s3 := tajStep s2.1 3 0x80 0x40
  let s4 := tajStep s3.1 27 0x20 0x10
  let s5 := tajStep s4.1 81 0x04 0x08
  -- X bits, in source order
  let t1 := tajStep dx 1 0x80 0x40
  let t2 := tajStep t1.1 9 0x20 0x10
  let t3 := tajStep t2.1 3 0x08 0x04
  let t4 := tajStep t3.1 27 0x02 0x01
  let t5 := tajStep t4.1 81 0x10 0x20
  (s1.2 ||| s2.2 ||| t1.2 ||| t2.2,
   s3.2 ||| s4.2 ||| t3.2 ||| t4.2,
   ctrl ||| s5.2 ||| t5.2)

/-- Modelled from the spec: the repository contains no DST decoder, so the
decoder is transcribed from the specification's Tajima bit table (spec §4.8:
weights plus or minus 1, 9, 3, 27, 81 at the listed bit positions of the
three bytes). Returns the decoded (delta x, delta y). -/
def decodeTajima (r : ℕ × ℕ × ℕ) : ℤ × ℤ :=
  let b0 := r.1
  let b1 := r.2.1
  let b2 := r.2.2
  let bit (b : ℕ) (i : ℕ) : ℤ := if b.testBit i then 1 else 0
  let dy := bit b0 0 * 1 - bit b0 1 * 1 + bit b0 2 * 9 - bit b0 3 * 9
    + bit b1 7 * 3 - bit b1 6 * 3 + bit b1 5 * 27 - bit b1 4 * 27
    + bit b2 2 * 81 - bit b2 3 * 81
  let dx := bit b0 7 * 1 - bit b0 6 * 1 + bit b0 5 * 9 - bit b0 4 * 9
    + bit b1 3 * 3 - bit b1 2 * 3 + bit b1 1 * 27 - bit b1 0 * 27
    + bit b2 4 * 81 - bit b2 5 * 81
  (dx, dy)

/-! ## The DST file writer (source: createDstFile, dstExporter.ts lines 63-184)

The loop state carries the current needle position in 0.1 mm integer units,
the bounding-box extents (JS initializes them to plus/minus Infinity,
modelled as none), the list of emitted 3-byte records and the running
stitch count. -/

/-- State of the createDstFile loop over the stitch list. -/
structure DstState where
  currentX : ℤ := 0
  currentY : ℤ := 0
  minX : Option ℤ := none
  maxX : Option ℤ := none
  minY : Option ℤ := none
  maxY : Option ℤ := none
  body : List (ℕ × ℕ × ℕ) := []
  stitchCount : ℕ := 0
deriving DecidableEq

/-- The per-axis step clamp of the DST oversize-jump loop (source:
dstExporter.ts lines 97-98, MAX_STEP = 121). -/
def dstClamp (d : ℤ) : ℤ :=
  if d > 121 then 121 else if d < -121 then -121 else d

/-- State threaded through the DST oversize-split while loop. -/
structure DstSplitSt where
  dx : ℤ
  dy : ℤ
  body : List (ℕ × ℕ × ℕ)
  count : ℕ
  cx : ℤ
  cy : ℤ
deriving DecidableEq

theorem dstClamp_natAbs_le (d : ℤ) : (d - dstClamp d).natAbs ≤ d.natAbs := by
  unfold dstClamp
  split <;> [skip; split] <;> omega

theorem dstClamp_natAbs_lt (d : ℤ) (h : 121 < d.natAbs) :
    (d - dstClamp d).natAbs < d.natAbs := by
  unfold dstClamp
  split <;> [skip; split] <;> omega

/-- The oversize-jump split loop (source: dstExporter.ts lines 96-108): while
either delta exceeds 121 units in magnitude, emit a clamped jump record,
advance the current position and keep the residual. -/
def dstSplitLoop (st : DstSplitSt) : DstSplitSt :=
  if h : 121 < st.dx.natAbs ∨ 121 < st.dy.natAbs then
    let sx := dstClamp st.dx
    let sy := dstClamp st.dy
    dstSplitLoop ⟨st.dx - sx, st.dy - sy,
      st.body ++ [encodeTajimaStitch sx sy DstKind.jump], st.count + 1,
      st.cx + sx, st.cy + sy⟩
  else st
termination_by st.dx.natAbs + st.dy.natAbs
decreasing_by
  rcases h with h | h
  · exact Nat.add_lt_add_of_lt_of_le (dstClamp_natAbs_lt _ h)
      (dstClamp_natAbs_le _)
  · exact Nat.add_lt_add_of_le_of_lt (dstClamp_natAbs_le _)
      (dstClamp_natAbs_lt _ h)

/-- The JS running-minimum update if (target < m) m = target, with the
initial Infinity modelled as none. -/
def optMinUpd (m : Option ℤ) (t : ℤ) : Option ℤ :=
  match m with
  | none => some t
  | some v => if t < v then some t else some v

/-- The JS running-maximum update if (target > m) m = target, with the
initial minus Infinity modelled as none. -/
def optMaxUpd (m : Option ℤ) (t : ℤ) : Option ℤ :=
  match m with
  | none => some t
  | some v => if t > v then some t else some v

/-- One iteration of the createDstFile stitch loop (source: dstExporter.ts
lines 75-120): end records are skipped; otherwise the target is the rounded
0.1 mm position, the extents absorb the absolute target, oversize deltas are
split into jump records, and one final record of the stitch's kind is
emitted and counted. -/
noncomputable def dstStep (st : DstState) (s : Stitch) : DstState :=
  if s.type = StitchKind.ending then st
  else
    let targetX := jsRound (s.x * 10)
    let targetY := jsRound (s.y * 10)
    let minX' := optMinUpd st.minX targetX
    let maxX' := optMaxUpd st.maxX targetX
    let minY' := optMinUpd st.minY targetY
    let maxY' := optMaxUpd st.maxY targetY
    let sp := dstSplitLoop ⟨targetX - st.currentX, targetY - st.currentY,
      st.body, st.stitchCount, st.currentX, st.currentY⟩
    let k : DstKind :=
      if s.type = StitchKind.jump then DstKind.jump
      else if s.type = StitchKind.colorChange then DstKind.stop
      else DstKind.stitch
    { currentX := sp.cx + sp.dx, currentY := sp.cy + sp.dy,
      minX := minX', maxX := maxX', minY := minY', maxY := maxY',
      body := sp.body ++ [encodeTajimaStitch sp.dx sp.dy k],
      stitchCount := sp.count + 1 }

/-- The state after the whole createDstFile stitch loop. -/
noncomputable def dstLoop (stitches : List Stitch) : DstState :=
  stitches.foldl dstStep {}

/-- The full DST body: the loop's records followed by the synthetic
zero-delta end record (source: dstExporter.ts line 123). -/
noncomputable def dstBody (stitches : List Stitch) : List (ℕ × ℕ × ℕ) :=
  (dstLoop stitches).body ++ [encodeTajimaStitch 0 0 DstKind.ending]

/-- The stitch count written into the ST header field (source: dstExporter.ts
line 139). -/
noncomputable def dstStitchCount (stitches : List Stitch) : ℕ :=
  (dstLoop stitches).stitchCount

/-- JavaScript String.prototype.padStart with pad character 0. -/
def padStartZero (s : String) (n : ℕ) : String :=
  if n ≤ s.length then s
  else String.mk (List.replicate (n - s.length) (Char.ofNat 48)) ++ s

/-- The positive-X extent written into the header (source: dstExporter.ts
line 150): Math.max(0, maxX), where maxX is minus Infinity when no record
was processed. -/
noncomputable def dstPlusX (stitches : List Stitch) : ℤ :=
  match (dstLoop stitches).maxX with
  | none => 0
  | some v => max 0 v

/-- The negative-X extent (source: dstExporter.ts line 151):
Math.abs(Math.min(0, minX)). -/
noncomputable def dstMinusX (stitches : List Stitch) : ℤ :=
  match (dstLoop stitches).minX with
  | none => 0
  | some v => |min 0 v|

/-- The positive-Y extent (source: dstExporter.ts line 152). -/
noncomputable def dstPlusY (stitches : List Stitch) : ℤ :=
  match (dstLoop stitches).maxY with
  | none => 0
  | some v => max 0 v

/-- The negative-Y extent (source: dstExporter.ts line 153). -/
noncomputable def dstMinusY (stitches : List Stitch) : ℤ :=
  match (dstLoop stitches).minY with
  | none => 0
  | some v => |min 0 v|

/-- The ST header field string (source: dstExporter.ts line 139). -/
noncomputable def dstHeaderST (stitches : List Stitch) : String :=
  "ST:" ++ padStartZero (toString (dstStitchCount stitches)) 7

/-- The four bounding-box header field strings, in source order +X, -X,
+Y, -Y (source: dstExporter.ts lines 155-158). -/
noncomputable def dstHeaderBounds (stitches : List Stitch) : List String :=
  ["+X:" ++ padStartZero (toString (dstPlusX stitches).toNat) 5,
   "-X:" ++ padStartZero (toString (dstMinusX stitches).toNat) 5,
   "+Y:" ++ padStartZero (toString (dstPlusY stitches).toNat) 5,
   "-Y:" ++ padStartZero (toString (dstMinusY stitches).toNat) 5]

/-! ## The EXP file writer (source: createExpFile, vtracerService.ts
lines 259-337)

The output is modelled as the list of emitted bytes (the source writes into
a pre-sized Uint8Array and slices it to the written length; the pathological
silent truncation when the buffer estimate is exceeded is not modelled). -/

/-- State of the createExpFile loop. -/
structure ExpState where
  bytes : List ℕ := []
  currentX : ℤ := 0
  currentY : ℤ := 0
deriving DecidableEq

/-- The per-axis clamp of the EXP splitter (source: vtracerService.ts
lines 310-313, MAX_STEP = 120). -/
def expClamp (d : ℤ) : ℤ :=
  if d > 120 then 120 else if d < -120 then -120 else d

/-- A delta byte as written by the source's (value & 0xFF): the two's
complement residue in 0..255. -/
def expByte (d : ℤ) : ℕ := (d % 256).toNat

theorem expClamp_natAbs_le (d : ℤ) : (d - expClamp d).natAbs ≤ d.natAbs := by
  unfold expClamp
  split <;> [skip; split] <;> omega

theorem expClamp_natAbs_lt (d : ℤ) (h : d ≠ 0) :
    (d - expClamp d).natAbs < d.natAbs := by
  unfold expClamp
  split <;> [skip; split] <;> omega

/-- The EXP split loop (source: vtracerService.ts lines 305-333): while a
nonzero residual remains, emit one clamped jump (4 bytes) or stitch
(2 bytes) record and advance. -/
def expSplitLoop (isJump : Bool) (dx dy : ℤ) (bytes : List ℕ)
    (cx cy : ℤ) : List ℕ × ℤ × ℤ :=
  if h : dx ≠ 0 ∨ dy ≠ 0 then
    let sx := expClamp dx
    let sy := expClamp dy
    let recBytes : List ℕ :=
      if isJump then [0x80, 0x04, expByte sx, expByte sy]
      else [expByte sx, expByte sy]
    expSplitLoop isJump (dx - sx) (dy - sy) (bytes ++ recBytes)
      (cx + sx) (cy + sy)
  else (bytes, cx, cy)
termination_by dx.natAbs + dy.natAbs
decreasing_by
  rcases h with h | h
  · exact Nat.add_lt_add_of_lt_of_le (expClamp_natAbs_lt _ h)
      (expClamp_natAbs_le _)
  · exact Nat.add_lt_add_of_le_of_lt (expClamp_natAbs_le _)
      (expClamp_natAbs_lt _ h)

/-- One iteration of the createExpFile loop (source: vtracerService.ts
lines 270-334): end and color_change write a stop, trim writes three
zero-delta jumps, and movement records are split with the anti-drift
residual loop. -/
noncomputable def expStep (st : ExpState) (s : Stitch) : ExpState :=
  if s.type = StitchKind.ending then
    { st with bytes := st.bytes ++ [0x80, 0x01, 0x00, 0x00] }
  else if s.type = StitchKind.colorChange then
    { st with bytes := st.bytes ++ [0x80, 0x01, 0x00, 0x00] }
  else if s.type = StitchKind.trim then
    { st with bytes := st.bytes ++ [0x80, 0x04, 0, 0, 0x80, 0x04, 0, 0,
      0x80, 0x04, 0, 0] }
  else
    let targetX := jsRound (s.x * 10)
    let targetY := jsRound (s.y * 10)
    let r := expSplitLoop (s.type = StitchKind.jump)
      (targetX - st.currentX) (targetY - st.currentY)
      st.bytes st.currentX st.currentY
    { bytes := r.1, currentX := r.2.1, currentY := r.2.2 }

/-- The byte list of the EXP file (source: createExpFile). -/
noncomputable def createExpFile (stitches : List Stitch) : List ℕ :=
  (stitches.foldl expStep {}).bytes

/-- The S4 scenario stitch list of the spec: stitch (0,0), stitch (5,-3.2),
end. -/
noncomputable def s4Stitches : List Stitch :=
  [{ x := 0, y := 0, type := StitchKind.stitch },
   { x := 5, y := -3.2, type := StitchKind.stitch },
   { x := 5, y := -3.2, type := StitchKind.ending }]

/-! ## More JS arithmetic helpers -/

/-- JavaScript truncation toward zero (used by the JS % operator on
numbers). -/
noncomputable def jsTrunc (x : ℝ) : ℤ := if 0 ≤ x then ⌊x⌋ else -⌊-x⌋

/-- The JavaScript % operator on numbers: a - b * trunc (a / b). -/
noncomputable def jsFmod (a b : ℝ) : ℝ := a - b * (jsTrunc (a / b) : ℤ)

/-! ## Polygon offset (source: offsetPolygon, part_000 lines 85-113) -/

/-- One displaced vertex of the polygon offset: the averaged-normal miter
construction of the source, with the miter multiplier clamped to 2. -/
noncomputable def offsetVertex (path : List Point) (offsetMm : ℝ)
    (i : ℕ) : Point :=
  let len := path.length
  let prev := path.getD ((i + len - 1) % len) ⟨0, 0⟩
  let curr := path.getD i ⟨0, 0⟩
  let next := path.getD ((i + 1) % len) ⟨0, 0⟩
  let v1 := normalize ⟨curr.x - prev.x, curr.y - prev.y⟩
  let v2 := normalize ⟨next.x - curr.x, next.y - curr.y⟩
  let n1 : Point := ⟨-v1.y, v1.x⟩
  let n2 : Point := ⟨-v2.y, v2.x⟩
  let avgN := normalize (addPoints n1 n2)
  let dt := n1.x * n2.x + n1.y * n2.y
  let miter := min (1 / max 0.1 ((1 + dt) / 2)) 2.0
  addPoints curr (scalePoint avgN (offsetMm * miter))

/-- Polygon offset with miter join (source: offsetPolygon, part_000
lines 85-113); degenerate polygons are returned unchanged. -/
noncomputable def offsetPolygon (path : List Point) (offsetMm : ℝ) :
    List Point :=
  if path.length < 3 then path
  else (List.range path.length).map (offsetVertex path offsetMm)

/-! ## Uniform resampling (source: resamplePath, part_000 lines 116-134) -/

/-- Total arc length of a polyline. -/
noncomputable def pathLen : List Point → ℝ
  | p :: q :: rest => dist p q + pathLen (q :: rest)
  | _ => 0

/-- Fuel-bounded transcription of the resampling loop body (source:
resamplePath, part_000 lines 121-131). The loop re-examines the current
input point after each emission (the i-- of the source); the fuel bounds
the number of iterations and is chosen large enough for every terminating
run of the source. With non-positive spacing the source loop diverges; the
model then stops when the fuel runs out. -/
noncomputable def resampleGo (spacing : ℝ) :
    ℕ → Point → ℝ → List Point → List Point
  | 0, _, _, _ => []
  | _ + 1, _, _, [] => []
  | fuel + 1, prev, acc, curr :: rest =>
    let d := dist prev curr
    if acc + d ≥ spacing then
      let needed := spacing - acc
      let ratio := needed / d
      let nextPoint := interpolatePoints prev curr ratio
      nextPoint :: resampleGo spacing fuel nextPoint 0 (curr :: rest)
    else
      resampleGo spacing fuel curr (acc + d) rest

/-- Arc-length resampling (source: resamplePath, part_000 lines 116-134):
keep the first vertex, walk the path emitting a point once the accumulated
distance reaches the spacing, and append the original last vertex. -/
noncomputable def resamplePath (path : List Point) (spacing : ℝ) :
    List Point :=
  if path.length < 2 then path
  else
    match path with
    | [] => path
    | p0 :: rest =>
      (p0 :: resampleGo spacing
          (path.length + ⌈pathLen path / spacing⌉₊ + 1) p0 0 rest)
        ++ [(p0 :: rest).getLastD p0]

/-! ## The running-stitch generator (source: generateRunningStitches,
part_000 lines 392-429) -/

/-- The adjacent-duplicate removal of the running generator (source:
part_000 lines 397-402): keep a point only when it is farther than 0.01 mm
from the last kept point. -/
noncomputable def cleanGo (last : Point) : List Point → List Point
  | [] => []
  | p :: rest =>
    if dist last p > 0.01 then p :: cleanGo p rest else cleanGo last rest

/-- The cleaned path: the first point followed by the filtered rest. -/
noncomputable def cleanPath : List Point → List Point
  | [] => []
  | p :: rest => p :: cleanGo p rest

/-- The default-substituted maximum run length (source: part_000 line 409):
the config value when positive, else 2.5 mm. -/
noncomputable def maxRunLen (config : ProcessingConfig) : ℝ :=
  if config.maxStitchLengthMm > 0 then config.maxStitchLengthMm else 2.5

/-- Emission for one segment of the running generator (source: part_000
lines 411-426): the endpoint when the segment is within L, otherwise
ceil (d / L) equally spaced interpolated points ending at the endpoint. -/
noncomputable def runSegment (L : ℝ) (colorIdx : ℕ) (hex : String)
    (prev curr : Point) : List Stitch :=
  let d := dist prev curr
  if d > L then
    (List.range ⌈d / L⌉₊).map (fun (j : ℕ) =>
      let t := ((j : ℝ) + 1) / (⌈d / L⌉₊ : ℝ)
      let p := interpolatePoints prev curr t
      { x := p.x, y := p.y, type := StitchKind.stitch,
        colorIndex := colorIdx, hexColor := hex })
  else
    [{ x := curr.x, y := curr.y, type := StitchKind.stitch,
       colorIndex := colorIdx, hexColor := hex }]

/-- The per-segment emission loop of the running generator. -/
noncomputable def runEmit (L : ℝ) (colorIdx : ℕ) (hex : String) :
    Point → List Point → List Stitch
  | _, [] => []
  | prev, curr :: rest =>
    runSegment L colorIdx hex prev curr ++ runEmit L colorIdx hex curr rest

/-- The running-stitch generator (source: generateRunningStitches, part_000
lines 392-429). -/
noncomputable def generateRunningStitches (pathMm : List Point)
    (config : ProcessingConfig) (colorIdx : ℕ) (hex : String) :
    List Stitch :=
  if pathMm.length < 2 then []
  else
    match cleanPath pathMm with
    | [] => []
    | [_] => []
    | c0 :: c1 :: rest =>
      { x := c0.x, y := c0.y, type := StitchKind.stitch,
        colorIndex := colorIdx, hexColor := hex }
        :: runEmit (maxRunLen config) colorIdx hex c0 (c1 :: rest)

/-! ## The satin generator (source: generateSatinStitches, part_000
lines 190-290) -/

/-- The miter vector and pre-clamp miter length at one spine point
(source: part_000 lines 206-225): the bisector-normal construction with
the 0.1 dot guard and the degenerate-tangent fallback. -/
noncomputable def satinMiter (v1 v2 : Point) (halfWidth : ℝ) :
    Point × ℝ :=
  let n1 : Point := ⟨-v1.y, v1.x⟩
  let tangentSum := addPoints v1 v2
  let tangentLen :=
    Real.sqrt (tangentSum.x * tangentSum.x + tangentSum.y * tangentSum.y)
  if tangentLen < 0.001 then (n1, halfWidth)
  else
    let bisector := normalize tangentSum
    let miterVector : Point := ⟨-bisector.y, bisector.x⟩
    let dt := dotProduct miterVector n1
    if |dt| > 0.1 then (miterVector, halfWidth / dt)
    else (miterVector, halfWidth)

/-- The rail pair at index i of the resampled spine (source: part_000
lines 201-232): the mitered construction with virtual mirrored neighbours
at the two ends and the 3h miter clamp. Out-of-range indexing (never
reached by the generator, whose spine always has at least two points)
defaults to the origin. -/
noncomputable def satinRailAt (r : List Point) (halfWidth : ℝ)
    (i : ℕ) : Point × Point :=
  let curr := r.getD i ⟨0, 0⟩
  let prev := if 0 < i then r.getD (i - 1) ⟨0, 0⟩
    else subPoints curr (subPoints (r.getD (i + 1) ⟨0, 0⟩) curr)
  let next := if i < r.length - 1 then r.getD (i + 1) ⟨0, 0⟩
    else addPoints curr (subPoints curr (r.getD (i - 1) ⟨0, 0⟩))
  let v1 := normalize (subPoints curr prev)
  let v2 := normalize (subPoints next curr)
  let mv := satinMiter v1 v2 halfWidth
  let miterLength :=
    if mv.2 > halfWidth * 3.0 then halfWidth * 3.0 else mv.2
  (addPoints curr (scalePoint mv.1 miterLength),
   subPoints curr (scalePoint mv.1 miterLength))

/-- The penetration pair at index i after the short-stitch shortening
(source: part_000 lines 234-255): odd indices compare the incoming
rail-edge lengths and pull the shorter side 30 percent toward the other
when it is below 0.6 times the other and below 0.4 mm. -/
noncomputable def satinPairAt (leftRail rightRail : List Point)
    (i : ℕ) : Point × Point :=
  let p1 := leftRail.getD i ⟨0, 0⟩
  let p2 := rightRail.getD i ⟨0, 0⟩
  if 0 < i ∧ i % 2 ≠ 0 then
    let dLeft := dist p1 (leftRail.getD (i - 1) ⟨0, 0⟩)
    let dRight := dist p2 (rightRail.getD (i - 1) ⟨0, 0⟩)
    if dLeft < dRight * 0.6 ∧ dLeft < 0.4 then
      (interpolatePoints p1 p2 0.3, p2)
    else if dRight < dLeft * 0.6 ∧ dRight < 0.4 then
      (p1, interpolatePoints p2 p1 0.3)
    else (p1, p2)
  else (p1, p2)

/-- The emission of one satin crossing (source: part_000 lines 257-286):
within the maximum stitch length the two rail points are emitted; longer
crossings are split into ceil (len / max) parts with the center-right-left
anti-railroading shift on the intermediate penetrations. -/
noncomputable def satinCrossing (config : ProcessingConfig) (colorIdx : ℕ)
    (hex : String) (i : ℕ) (p1 p2 : Point) : List Stitch :=
  let currentLen := dist p1 p2
  if currentLen > config.maxStitchLengthMm then
    let maxLen := if config.maxStitchLengthMm = 0 then 7.0
      else config.maxStitchLengthMm
    let steps : ℤ := ⌈currentLen / maxLen⌉
    let idealSegLen := currentLen / (steps : ℝ)
    let maxSafeShift := maxLen - idealSegLen - 0.1
    let mids := (List.range (steps - 1).toNat).map (fun (j : ℕ) =>
      let t0 := ((j : ℝ) + 1) / (steps : ℝ)
      let t := if maxSafeShift > 0.5 then
          let pattern : ℝ :=
            if i % 3 = 0 then 0 else if i % 3 = 1 then 0.5 else -0.5
          t0 + pattern * min maxSafeShift 2.0 / currentLen
        else t0
      let mid := interpolatePoints p1 p2 t
      ({ x := mid.x, y := mid.y, type := StitchKind.stitch,
         colorIndex := colorIdx, hexColor := hex } : Stitch))
    ({ x := p1.x, y := p1.y, type := StitchKind.stitch,
       colorIndex := colorIdx, hexColor := hex } : Stitch)
      :: mids
      ++ [{ x := p2.x, y := p2.y, type := StitchKind.stitch,
            colorIndex := colorIdx, hexColor := hex }]
  else
    [{ x := p1.x, y := p1.y, type := StitchKind.stitch,
       colorIndex := colorIdx, hexColor := hex },
     { x := p2.x, y := p2.y, type := StitchKind.stitch,
       colorIndex := colorIdx, hexColor := hex }]

/-- The half-width of the satin column (source: part_000 line 194). -/
noncomputable def satinHalfWidth (config : ProcessingConfig) : ℝ :=
  config.satinColumnWidthMm / 2 + config.pullCompensationMm / 2

/-- The left rail of the satin generator over the resampled spine. -/
noncomputable def satinLeftRail (r : List Point) (halfWidth : ℝ) :
    List Point :=
  (List.range r.length).map (fun i => (satinRailAt r halfWidth i).1)

/-- The right rail of the satin generator over the resampled spine. -/
noncomputable def satinRightRail (r : List Point) (halfWidth : ℝ) :
    List Point :=
  (List.range r.length).map (fun i => (satinRailAt r halfWidth i).2)

/-- The list of penetration pairs of the satin generator: the shortened
rail pairs, in spine order (the pairs from which generateSatinStitches
emits its crossings). -/
noncomputable def satinPairs (pathMm : List Point)
    (config : ProcessingConfig) : List (Point × Point) :=
  let r := resamplePath pathMm config.densityMm
  let leftRail := satinLeftRail r (satinHalfWidth config)
  let rightRail := satinRightRail r (satinHalfWidth config)
  (List.range leftRail.length).map (fun i => satinPairAt leftRail rightRail i)

/-- The squared Euclidean norm of a point seen as a vector (abbreviation
used by the proofs). -/
def nsq (p : Point) : ℝ := p.x ^ 2 + p.y ^ 2

/-- The satin generator (source: generateSatinStitches, part_000
lines 190-290). -/
noncomputable def generateSatinStitches (pathMm : List Point)
    (config : ProcessingConfig) (colorIdx : ℕ) (hex : String) :
    List Stitch :=
  if pathMm.length < 2 then []
  else
    let r := resamplePath pathMm config.densityMm
    let leftRail := satinLeftRail r (satinHalfWidth config)
    let rightRail := satinRightRail r (satinHalfWidth config)
    ((List.range leftRail.length).map (fun i =>
      let pr := satinPairAt leftRail rightRail i
      satinCrossing config colorIdx hex i pr.1 pr.2)).join

/-! ## The tatami generator (source: generateTatamiStitches, part_000
lines 292-390) -/

/-- One possibly emitted scanline edge, ordered bottom to top; edges that
are nearly horizontal are skipped (source: part_000 lines 304-317). -/
noncomputable def orderEdge (p q : Point) : List (Point × Point) :=
  if |p.y - q.y| > 0.001 then
    if p.y < q.y then [(p, q)] else [(q, p)]
  else []

/-- The edge table of one rotated polygon, consecutive edges then the
closing edge (source: part_000 lines 305-317). -/
noncomputable def tatamiPathEdges (path : List Point) : List (Point × Point) :=
  ((path.zip path.tail).map (fun pq => orderEdge pq.1 pq.2)).join ++
    (match path with
     | [] => []
     | p :: rest => orderEdge ((p :: rest).getLastD p) p)

/-- The x intersections of the row at height y with the edge table, in
table order, using the half-open rule y1 ≤ y < y2 (source: part_000
lines 324-331). -/
noncomputable def rowIntersections (edges : List (Point × Point)) (y : ℝ) :
    List ℝ :=
  (edges.filter (fun e => e.1.y ≤ y ∧ e.2.y > y)).map (fun e =>
    e.1.x + (y - e.1.y) * (e.2.x - e.1.x) / (e.2.y - e.1.y))

/-- Consecutive disjoint pairs of the sorted intersection list (source:
part_000 lines 334-337). -/
noncomputable def pairUp : List ℝ → List (ℝ × ℝ)
  | a :: b :: rest => (a, b) :: pairUp rest
  | _ => []

/-- The penetration abscissas of one row segment before rotation back
(source: part_000 lines 342-365): two endpoints within the maximum length,
otherwise the brick pattern with the deterministic sine noise offset and a
4 mm step. -/
noncomputable def tatamiRowSegment (config : ProcessingConfig)
    (y xStart xEnd : ℝ) : List Point :=
  let maxSatinLen := if config.maxStitchLengthMm = 0 then 7.0
    else config.maxStitchLengthMm
  if xEnd - xStart ≤ maxSatinLen then [⟨xStart, y⟩, ⟨xEnd, y⟩]
  else
    let stitchLen : ℝ := 4.0
    let pseudoRandom := Real.sin (y * 123.45) * 10000
    let noise := (pseudoRandom - ⌊pseudoRandom⌋) * 0.4
    let offsetFraction := ((|jsRound (y * 10)| % 3 : ℤ) : ℝ) / 3 + noise
    let rowOffset := offsetFraction * stitchLen
    let start0 := xStart + jsFmod (stitchLen - rowOffset) stitchLen
    let currX := if start0 ≤ xStart then start0 + stitchLen else start0
    let mids := ((List.range ⌈(xEnd - currX) / stitchLen⌉₊).map
      (fun (k : ℕ) => currX + (k : ℝ) * stitchLen)).filter
      (fun v => v < xEnd)
    ⟨xStart, y⟩ :: mids.map (fun v => (⟨v, y⟩ : Point)) ++ [⟨xEnd, y⟩]

/-- Appending one row segment to the tatami output (source: part_000
lines 338-387): short segments are skipped, even rows are reversed, the
connection to the previous penetration becomes a structural jump above
2 mm, a plain stitch above 0.1 mm, or nothing, and every penetration is
rotated back by the inverse angle. -/
noncomputable def tatamiAppendSegment (config : ProcessingConfig)
    (colorIdx : ℕ) (hex : String) (invAngle rowSpacing y : ℝ)
    (acc : List Stitch) (seg : ℝ × ℝ) : List Stitch :=
  if seg.2 - seg.1 < 0.5 then acc
  else
    let line0 := tatamiRowSegment config y seg.1 seg.2
    let line := if (jsRound (y / rowSpacing)) % 2 = 0 then line0.reverse
      else line0
    match line with
    | [] => acc
    | l0 :: lrest =>
      let firstP := rotatePoint l0 invAngle
      let rest := lrest.map (fun p =>
        let q := rotatePoint p invAngle
        ({ x := q.x, y := q.y, type := StitchKind.stitch,
           colorIndex := colorIdx, hexColor := hex } : Stitch))
      let head : List Stitch :=
        match acc.getLast? with
        | none =>
          [{ x := firstP.x, y := firstP.y, type := StitchKind.jump,
             colorIndex := colorIdx, hexColor := hex, isStructure := true }]
        | some lastStitch =>
          let d := dist ⟨lastStitch.x, lastStitch.y⟩ firstP
          if d > 2.0 then
            [{ x := firstP.x, y := firstP.y, type := StitchKind.jump,
               colorIndex := colorIdx, hexColor := hex,
               isStructure := true }]
          else if d > 0.1 then
            [{ x := firstP.x, y := firstP.y, type := StitchKind.stitch,
               colorIndex := colorIdx, hexColor := hex }]
          else []
      acc ++ head ++ rest

/-- The running minimum of a fold over the y coordinates (JS starts at
Infinity, modelled as none). -/
noncomputable def foldMinY (points : List Point) : Option ℝ :=
  points.foldl (fun acc p =>
    match acc with
    | none => some p.y
    | some m => if p.y < m then some p.y else some m) none

/-- The running maximum of a fold over the y coordinates (JS starts at
minus Infinity, modelled as none). -/
noncomputable def foldMaxY (points : List Point) : Option ℝ :=
  points.foldl (fun acc p =>
    match acc with
    | none => some p.y
    | some m => if p.y > m then some p.y else some m) none

/-- The visited row heights of the scanline sweep (source: part_000
line 323): minY + density, stepping by density, strictly below maxY. With
non-positive density and a nonempty range the source loop diverges; the
model then produces no rows. -/
noncomputable def tatamiRows (minY maxY rowSpacing : ℝ) : List ℝ :=
  if rowSpacing > 0 then
    ((List.range ⌈(maxY - (minY + rowSpacing)) / rowSpacing⌉₊).map
      (fun (k : ℕ) => minY + rowSpacing + (k : ℝ) * rowSpacing)).filter
      (fun y => y < maxY)
  else []

/-- The tatami generator (source: generateTatamiStitches, part_000
lines 292-390). -/
noncomputable def generateTatamiStitches (shapePathsMm : List (List Point))
    (config : ProcessingConfig) (colorIdx : ℕ) (hex : String) :
    List Stitch :=
  if shapePathsMm.isEmpty then []
  else
    let compensated := shapePathsMm.map
      (fun p => offsetPolygon p config.pullCompensationMm)
    let angleRad := -config.tatamiAngle * (Real.pi / 180)
    let invAngle := -angleRad
    let rotated := compensated.map
      (fun path => path.map (fun p => rotatePoint p angleRad))
    match foldMinY rotated.join, foldMaxY rotated.join with
    | some minY, some maxY =>
      let edges := (rotated.map tatamiPathEdges).join
      (tatamiRows minY maxY config.densityMm).foldl (fun acc y =>
        let ints := (rowIntersections edges y).mergeSort
          (fun a b => decide (a ≤ b))
        (pairUp ints).foldl
          (tatamiAppendSegment config colorIdx hex invAngle
            config.densityMm y) acc) []
    | _, _ => []

/-! ## Underlay, ties and cleanup (source: part_000 lines 431-505) -/

/-- The underlay generator (source: generateUnderlay, part_000
lines 431-464). -/
noncomputable def generateUnderlay (pathMm : List Point)
    (config : ProcessingConfig) (colorIdx : ℕ) (hex : String) :
    List Stitch :=
  if config.enableUnderlay = false then []
  else
    let stitches :=
      if config.stitchType = "satin" then
        if config.satinColumnWidthMm < 2.0 then
          generateRunningStitches pathMm config colorIdx hex
        else
          let inset := config.satinColumnWidthMm / 2 - 0.4
          if inset > 0 then
            generateSatinStitches pathMm
              ({ config with
                  satinColumnWidthMm := inset * 2
                  densityMm := 2.0
                  pullCompensationMm := 0 }) colorIdx hex
          else []
      else
        let insetPoly := offsetPolygon pathMm (-0.6)
        if insetPoly.length > 2 then
          let run := generateRunningStitches insetPoly config colorIdx hex
          let marked := run.map (fun s => { s with isStructure := true })
          match run with
          | [] => marked
          | r0 :: _ => marked ++
              [{ r0 with type := StitchKind.stitch, isStructure := true }]
        else []
    stitches.map (fun s => { s with isStructure := true })

/-- The 0.5 mm lateral tie-in backtrack (source: addTieIn, part_000
lines 466-477). -/
noncomputable def addTieIn (stitches : List Stitch) : List Stitch :=
  match stitches with
  | [] => []
  | first :: _ =>
    if first.type = StitchKind.jump ∨ first.type = StitchKind.ending then
      stitches
    else
      { x := first.x + 0.5, y := first.y, type := StitchKind.stitch,
        colorIndex := first.colorIndex, hexColor := first.hexColor,
        isStructure := true }
        :: { x := first.x, y := first.y, type := StitchKind.stitch,
             colorIndex := first.colorIndex, hexColor := first.hexColor,
             isStructure := true }
        :: stitches

/-- The 0.5 mm tie-off backtrack followed by a trim (source: addTieOff,
part_000 lines 479-491). -/
noncomputable def addTieOff (stitches : List Stitch) : List Stitch :=
  match stitches.getLast? with
  | none => []
  | some last =>
    if last.type = StitchKind.jump ∨ last.type = StitchKind.ending then
      stitches
    else
      stitches ++
        [{ x := last.x - 0.5, y := last.y, type := StitchKind.stitch,
           colorIndex := last.colorIndex, hexColor := last.hexColor,
           isStructure := true },
         { x := last.x, y := last.y, type := StitchKind.stitch,
           colorIndex := last.colorIndex, hexColor := last.hexColor,
           isStructure := true },
         { x := last.x, y := last.y, type := StitchKind.trim,
           colorIndex := last.colorIndex, hexColor := last.hexColor,
           isStructure := true }]

/-- The walk of the small-stitch filter over the tail (source:
removeSmallStitches, part_000 lines 495-504): a stitch record closer than
minLen but farther than 0.01 mm to the last kept record is dropped. -/
noncomputable def removeSmallGo (minLen : ℝ) :
    Stitch → List Stitch → List Stitch
  | _, [] => []
  | prev, curr :: rest =>
    if curr.type = StitchKind.stitch ∧
        dist ⟨prev.x, prev.y⟩ ⟨curr.x, curr.y⟩ < minLen ∧
        dist ⟨prev.x, prev.y⟩ ⟨curr.x, curr.y⟩ > 0.01 then
      removeSmallGo minLen prev rest
    else
      curr :: removeSmallGo minLen curr rest

/-- The small-stitch filter (source: removeSmallStitches, part_000
lines 493-505). The first record is kept unconditionally. On an empty
input the source would read element 0 of an empty array and return a
one-element array holding undefined; the model returns the empty list, the
closest representable value. -/
noncomputable def removeSmallStitches (stitches : List Stitch)
    (minLen : ℝ) : List Stitch :=
  match stitches with
  | [] => []
  | s0 :: rest => s0 :: removeSmallGo minLen s0 rest

/-! ## The layer composer (source: digitizeDesign, part_000
lines 782-848) -/

/-- The main-generator dispatch on the configured stitch type (source:
part_000 lines 801-808). -/
noncomputable def mainStitches (config : ProcessingConfig)
    (path : List Point) (i : ℕ) (color : String) : List Stitch :=
  if config.stitchType = "tatami" then
    generateTatamiStitches [path] config i color
  else if config.stitchType = "satin" then
    generateSatinStitches path config i color
  else
    generateRunningStitches path config i color

/-- The underlay part of one path iteration (source: part_000
lines 791-798): when the underlay is nonempty, tie it in and, when the
layer already has content, precede it by a structural jump to its first
record. -/
noncomputable def pathUnderlayPart (i : ℕ) (color : String)
    (layerStitches underlay : List Stitch) : List Stitch :=
  if underlay.isEmpty then layerStitches
  else
    let tied := addTieIn underlay
    let pre : List Stitch :=
      if layerStitches.isEmpty then []
      else
        match tied with
        | [] => []
        | t0 :: _ =>
          [{ x := t0.x, y := t0.y, type := StitchKind.jump,
             colorIndex := i, hexColor := color, isStructure := true }]
    layerStitches ++ pre ++ tied

/-- The inter-path glue (source: part_000 lines 815-826): above the
trim-jump threshold a trim at the previous position followed by a jump to
the new first record, otherwise just the jump. -/
noncomputable def pathGlue (config : ProcessingConfig) (i : ℕ)
    (color : String) (ls1 main : List Stitch) : List Stitch :=
  if ls1.isEmpty then []
  else
    match ls1.getLast?, main.head? with
    | some last, some first =>
      if dist ⟨last.x, last.y⟩ ⟨first.x, first.y⟩
          > config.trimJumpDistanceMm then
        [{ x := last.x, y := last.y, type := StitchKind.trim,
           colorIndex := i, hexColor := color, isStructure := true },
         { x := first.x, y := first.y, type := StitchKind.jump,
           colorIndex := i, hexColor := color, isStructure := true }]
      else
        [{ x := first.x, y := first.y, type := StitchKind.jump,
           colorIndex := i, hexColor := color, isStructure := true }]
    | _, _ => []

/-- The main part of one path iteration (source: part_000 lines 800-827):
tie in the main stitches when there was no underlay, tie them off, and
append them after the inter-path glue. -/
noncomputable def pathMainPart (config : ProcessingConfig) (i : ℕ)
    (color : String) (ls1 : List Stitch) (underlayEmpty : Bool)
    (main0 : List Stitch) : List Stitch :=
  if main0.isEmpty then ls1
  else
    let main := addTieOff (if underlayEmpty then addTieIn main0 else main0)
    ls1 ++ pathGlue config i color ls1 main ++ main

/-- Processing of one path inside a layer (source: part_000 lines 789-828):
underlay with its tie-in and optional leading jump, then the tied main
stitches preceded by a jump or a trim plus jump depending on the gap. -/
noncomputable def digitizePath (config : ProcessingConfig) (i : ℕ)
    (color : String) (layerStitches : List Stitch) (path : List Point) :
    List Stitch :=
  let underlay := generateUnderlay path config i color
  pathMainPart config i color
    (pathUnderlayPart i color layerStitches underlay)
    underlay.isEmpty (mainStitches config path i color)

/-- All stitches of one layer (source: part_000 lines 787-829). -/
noncomputable def digitizeLayer (config : ProcessingConfig) (i : ℕ)
    (layer : VectorLayer) : List Stitch :=
  layer.paths.foldl (digitizePath config i layer.color) []

/-- The inter-layer glue (source: part_000 lines 832-835): a color change
at the previous position followed by a jump to the new layer's first
record. -/
noncomputable def layerGlue (i : ℕ) (color : String)
    (allStitches ls : List Stitch) : List Stitch :=
  match allStitches.getLast?, ls.head? with
  | some last, some first =>
    [{ x := last.x, y := last.y, type := StitchKind.colorChange,
       colorIndex := i, hexColor := color, isStructure := true },
     { x := first.x, y := first.y, type := StitchKind.jump,
       colorIndex := i, hexColor := color, isStructure := true }]
  | _, _ => []

/-- One layer iteration of the design fold (source: part_000
lines 831-838). -/
noncomputable def layerStep (config : ProcessingConfig)
    (allStitches : List Stitch) (il : ℕ × VectorLayer) : List Stitch :=
  let ls := digitizeLayer config il.1 il.2
  if ls.isEmpty then allStitches
  else if allStitches.isEmpty then allStitches ++ ls
  else allStitches ++ layerGlue il.1 il.2.color allStitches ls ++ ls

/-- The concatenation of all layers with color-change and jump glue
(source: part_000 lines 785-839). -/
noncomputable def digitizeAll (layers : List VectorLayer)
    (config : ProcessingConfig) : List Stitch :=
  layers.enum.foldl (layerStep config) []

/-- The digitizing pipeline (source: digitizeDesign, part_000
lines 782-848): compose the layers, remove small stitches, and append a
single end record duplicating the last record's position. -/
noncomputable def digitizeDesign (layers : List VectorLayer)
    (config : ProcessingConfig) : List Stitch :=
  let cleaned := removeSmallStitches (digitizeAll layers config)
    config.minStitchLengthMm
  match cleaned.getLast? with
  | none => cleaned
  | some last => cleaned ++
      [{ x := last.x, y := last.y, type := StitchKind.ending,
         colorIndex := last.colorIndex, hexColor := last.hexColor,
         isStructure := last.isStructure }]

/-- The successor discipline of trim records: whenever the left record is a
trim, the right one is a jump, a color change, the end marker, or another
trim (claims C3; the adjacency the pipeline actually guarantees). -/
def trimNext (a b : Stitch) : Prop :=
  a.type = StitchKind.trim →
    b.type = StitchKind.jump ∨ b.type = StitchKind.colorChange ∨
    b.type = StitchKind.ending ∨ b.type = StitchKind.trim

/-! ## The nearest-join sequencer (source: part_000 lines 137-186) -/

/-- Rotation of a closed polygon to start at a chosen vertex (source:
reorderPolygonToStartAt, part_000 lines 137-145): drop the duplicated
closing vertex, rotate, and close again at the new start. The source reads
rotated[0]; on an empty rotation (unreached, since the caller always
passes a vertex index of a polygon with at least two points) it would push
undefined, modelled as pushing nothing. -/
def reorderPolygonToStartAt (path : List Point) (bestIdx : ℕ) :
    List Point :=
  if bestIdx = 0 then path
  else
    let uniquePoints := path.take (path.length - 1)
    let part1 := uniquePoints.drop bestIdx
    let part2 := uniquePoints.take bestIdx
    let rotated := part1 ++ part2
    match rotated.head? with
    | none => rotated
    | some r0 => rotated ++ [r0]

/-- The update of the running best candidate of the vertex scan (source:
part_000 lines 160-170): a candidate replaces the best so far exactly when
its squared distance is strictly smaller. The JS minimum starts at
Infinity, so the first candidate is always adopted; the none accumulator
models this. -/
noncomputable def scanStep (acc : Option (ℕ × ℕ × ℝ)) (c : ℕ × ℕ × ℝ) :
    Option (ℕ × ℕ × ℝ) :=
  match acc with
  | none => some c
  | some b => if c.2.2 < b.2.2 then some c else some b

/-- The double scan over the remaining polygons' vertices, the last vertex
of each polygon excluded (source: part_000 lines 156-170): candidates are
visited polygon-major in index order. -/
noncomputable def optimizeScan (currentPos : Point)
    (remaining : List (List Point)) : Option (ℕ × ℕ × ℝ) :=
  (((List.range remaining.length).map (fun i =>
      (List.range ((remaining.getD i []).length - 1)).map (fun v =>
        (i, v, distSq currentPos
          ((remaining.getD i []).getD v ⟨0, 0⟩))))).join).foldl
    scanStep none

/-- The sequencing loop (source: part_000 lines 155-184): pick the best
candidate, rotate the chosen polygon there, emit it and drop it from the
remaining list, continuing from its last point; without any candidate the
first remaining polygon is emitted unrotated. Each iteration removes
exactly one polygon, so the initial fuel of optimizePathSequence covers
every run of the source loop. -/
noncomputable def optimizeGo :
    ℕ → Point → List (List Point) → List (List Point)
  | 0, _, _ => []
  | _ + 1, _, [] => []
  | fuel + 1, currentPos, r0 :: rrest =>
    match optimizeScan currentPos (r0 :: rrest) with
    | some (i, v, _) =>
      let reordered := reorderPolygonToStartAt ((r0 :: rrest).getD i []) v
      reordered :: optimizeGo fuel (reordered.getLastD ⟨0, 0⟩)
        ((r0 :: rrest).eraseIdx i)
    | none => r0 :: optimizeGo fuel currentPos rrest

/-- The nearest-join sequencer (source: optimizePathSequence, part_000
lines 147-186). -/
noncomputable def optimizePathSequence (paths : List (List Point)) :
    List (List Point) :=
  optimizeGo paths.length ⟨0, 0⟩ paths

/-- Modelled from the spec's words (claim C9), not from the source: rotate
a closed polygon so that a chosen vertex becomes its start — strip the
duplicated closing vertex before rotation and re-append the new start
after, preserving closure. -/
def specRotate (path : List Point) (v : ℕ) : List Point :=
  let rotated := path.dropLast.rotate v
  rotated ++ [rotated.headD ⟨0, 0⟩]

/-- Modelled from the spec's words (claim C9), not from the source: the
vertex of the remaining polygons (closing duplicates stripped) nearest the
current head by squared Euclidean distance, earlier candidates winning
ties. -/
noncomputable def specScan (currentPos : Point)
    (remaining : List (List Point)) : Option (ℕ × ℕ × ℝ) :=
  (((List.range remaining.length).map (fun i =>
      (List.range (remaining.getD i []).dropLast.length).map (fun v =>
        (i, v, distSq currentPos
          ((remaining.getD i []).dropLast.getD v ⟨0, 0⟩))))).join).foldl
    scanStep none

/-- Modelled from the spec's words (claim C9), not from the source:
repeatedly pick the polygon with the nearest vertex, rotate it to start
there, emit it, and continue from its last point. The spec does not
describe polygons without usable vertices; with no candidate the model
stops and returns the remaining polygons unchanged. -/
noncomputable def specGo :
    ℕ → Point → List (List Point) → List (List Point)
  | 0, _, _ => []
  | _ + 1, _, [] => []
  | fuel + 1, currentPos, r0 :: rrest =>
    match specScan currentPos (r0 :: rrest) with
    | some (i, v, _) =>
      let reordered := specRotate ((r0 :: rrest).getD i []) v
      reordered :: specGo fuel (reordered.getLastD ⟨0, 0⟩)
        ((r0 :: rrest).eraseIdx i)
    | none => r0 :: rrest

/-- Modelled from the spec's words (claim C9), not from the source: the
whole greedy sequencing. -/
noncomputable def specOptimize (paths : List (List Point)) :
    List (List Point) :=
  specGo paths.length ⟨0, 0⟩ paths

/-! ## Concrete inputs used by the examples -/

/-- First spine point of the concrete satin example (claim C7). -/
noncomputable def c7p0 : Point := ⟨0, 0⟩

/-- Apex of the concrete satin example: a unit leg from the origin. -/
noncomputable def c7p1 : Point := ⟨5 / 13, 12 / 13⟩

/-- Last spine point of the concrete satin example: a second unit leg. -/
noncomputable def c7p2 : Point := ⟨10 / 13, 0⟩

/-- The concrete satin spine: an isosceles turn with unit legs. -/
noncomputable def c7path : List Point := [c7p0, c7p1, c7p2]

/-- Satin configuration of the concrete example: 2 mm column, no pull
compensation (half width 1 mm), 1 mm density. -/
noncomputable def c7cfg : ProcessingConfig :=
  { stitchType := "satin"
    densityMm := 1
    satinColumnWidthMm := 2
    pullCompensationMm := 0 }

/-- Concrete two-path running layer: two short horizontal dashes 8 mm
apart (claims C2, C3 and C8). -/
noncomputable def exLayer : VectorLayer :=
  { color := "c"
    paths := [[⟨0, 0⟩, ⟨2, 0⟩], [⟨10, 0⟩, ⟨12, 0⟩]] }

/-- The one-layer design of the concrete running example. -/
noncomputable def exLayers : List VectorLayer := [exLayer]

/-- Running configuration with out-of-range density and maximum stitch
length (claims C2, C3 and C8): the validation described by the spec would
reject it. -/
noncomputable def exCfg : ProcessingConfig :=
  { densityMm := -1
    maxStitchLengthMm := 0
    enableUnderlay := false }

/-- The traced pipeline output on the concrete two-dash example: tie-in,
the two stitches, tie-off and trim for each dash, trim-and-jump glue
between them (producing two adjacent trims), and the final end record. -/
noncomputable def exOut : List Stitch :=
  [⟨0.5, 0, StitchKind.stitch, 0, "c", true⟩,
   ⟨0, 0, StitchKind.stitch, 0, "c", true⟩,
   ⟨0, 0, StitchKind.stitch, 0, "c", false⟩,
   ⟨2, 0, StitchKind.stitch, 0, "c", false⟩,
   ⟨1.5, 0, StitchKind.stitch, 0, "c", true⟩,
   ⟨2, 0, StitchKind.stitch, 0, "c", true⟩,
   ⟨2, 0, StitchKind.trim, 0, "c", true⟩,
   ⟨2, 0, StitchKind.trim, 0, "c", true⟩,
   ⟨10.5, 0, StitchKind.jump, 0, "c", true⟩,
   ⟨10.5, 0, StitchKind.stitch, 0, "c", true⟩,
   ⟨10, 0, StitchKind.stitch, 0, "c", true⟩,
   ⟨10, 0, StitchKind.stitch, 0, "c", false⟩,
   ⟨12, 0, StitchKind.stitch, 0, "c", false⟩,
   ⟨11.5, 0, StitchKind.stitch, 0, "c", true⟩,
   ⟨12, 0, StitchKind.stitch, 0, "c", true⟩,
   ⟨12, 0, StitchKind.trim, 0, "c", true⟩,
   ⟨12, 0, StitchKind.ending, 0, "c", true⟩]


/-- The tied and trimmed main stitches of the first dash of the concrete
example. -/
noncomputable def exM1 : List Stitch :=
  [⟨0.5, 0, StitchKind.stitch, 0, "c", true⟩,
   ⟨0, 0, StitchKind.stitch, 0, "c", true⟩,
   ⟨0, 0, StitchKind.stitch, 0, "c", false⟩,
   ⟨2, 0, StitchKind.stitch, 0, "c", false⟩,
   ⟨1.5, 0, StitchKind.stitch, 0, "c", true⟩,
   ⟨2, 0, StitchKind.stitch, 0, "c", true⟩,
   ⟨2, 0, StitchKind.trim, 0, "c", true⟩]

/-- The tied and trimmed main stitches of the second dash of the concrete
example. -/
noncomputable def exM2 : List Stitch :=
  [⟨10.5, 0, StitchKind.stitch, 0, "c", true⟩,
   ⟨10, 0, StitchKind.stitch, 0, "c", true⟩,
   ⟨10, 0, StitchKind.stitch, 0, "c", false⟩,
   ⟨12, 0, StitchKind.stitch, 0, "c", false⟩,
   ⟨11.5, 0, StitchKind.stitch, 0, "c", true⟩,
   ⟨12, 0, StitchKind.stitch, 0, "c", true⟩,
   ⟨12, 0, StitchKind.trim, 0, "c", true⟩]

/-- The concrete example's layer output: the two dashes joined by the
trim-and-jump glue. -/
noncomputable def exMid : List Stitch :=
  exM1 ++
    [⟨2, 0, StitchKind.trim, 0, "c", true⟩,
     ⟨10.5, 0, StitchKind.jump, 0, "c", true⟩] ++ exM2


/-- Two closed triangles used by the sequencing witness (claim C9). -/
noncomputable def c9paths : List (List Point) :=
  [[⟨0, 0⟩, ⟨1, 0⟩, ⟨0, 1⟩, ⟨0, 0⟩],
   [⟨5, 5⟩, ⟨6, 5⟩, ⟨5, 6⟩, ⟨5, 5⟩]]


end Emb

/-! ## Claim C1 — DST round-trip of the delta encoder -/

/-- Claim C1 (code_bug evidence): the specification asserts that every 3-byte
DST record produced by encodeTajimaStitch for a delta with absolute value at
most 121 decodes back to exactly that delta, but the encoder's greedy
decomposition takes the weights in the order 1, 9, 3, 27, 81 with same-sign
steps only, so the delta (2, 0) — which needs the mixed-sign decomposition
3 - 1 — leaves residual 1 unencoded: the emitted record decodes to (1, 0). -/
theorem c1_dst_roundtrip_fails_at_two :
    Emb.decodeTajima (Emb.encodeTajimaStitch 2 0 Emb.DstKind.stitch) = (1, 0) ∧
    (1, 0) ≠ ((2 : ℤ), (0 : ℤ)) := by
  constructor
  · decide
  · decide

open Emb

/-! ## Claim C4 — the ST count equals the number of body records minus the
terminator -/

theorem dstSplitLoop_count_aux :
    ∀ (n : ℕ) (st : DstSplitSt), st.dx.natAbs + st.dy.natAbs ≤ n →
      (dstSplitLoop st).body.length + st.count
        = st.body.length + (dstSplitLoop st).count := by
  intro n
  induction n with
  | zero =>
    intro st h
    rw [dstSplitLoop, dif_neg (by omega)]
  | succ n ih =>
    intro st h
    rw [dstSplitLoop]
    by_cases hc : 121 < st.dx.natAbs ∨ 121 < st.dy.natAbs
    · rw [dif_pos hc]
      have hdec : (st.dx - dstClamp st.dx).natAbs
          + (st.dy - dstClamp st.dy).natAbs ≤ n := by
        rcases hc with hc | hc
        · have h1 := dstClamp_natAbs_lt st.dx hc
          have h2 := dstClamp_natAbs_le st.dy
          omega
        · have h1 := dstClamp_natAbs_le st.dx
          have h2 := dstClamp_natAbs_lt st.dy hc
          omega
      have := ih ⟨st.dx - dstClamp st.dx, st.dy - dstClamp st.dy,
        st.body ++ [encodeTajimaStitch (dstClamp st.dx) (dstClamp st.dy)
          DstKind.jump], st.count + 1, st.cx + dstClamp st.dx,
        st.cy + dstClamp st.dy⟩ hdec
      simp only [List.length_append, List.length_singleton] at this ⊢
      omega
    · rw [dif_neg hc]

/-- The oversize-split loop emits exactly as many records as it counts. -/
theorem dstSplitLoop_count (st : DstSplitSt) :
    (dstSplitLoop st).body.length + st.count
      = st.body.length + (dstSplitLoop st).count :=
  dstSplitLoop_count_aux (st.dx.natAbs + st.dy.natAbs) st le_rfl

theorem dstStep_preserves_count (st : DstState) (s : Stitch)
    (h : st.body.length = st.stitchCount) :
    (dstStep st s).body.length = (dstStep st s).stitchCount := by
  unfold dstStep
  by_cases hs : s.type = StitchKind.ending
  · rw [if_pos hs]; exact h
  · rw [if_neg hs]
    simp only [List.length_append, List.length_singleton]
    have := dstSplitLoop_count ⟨jsRound (s.x * 10) - st.currentX,
      jsRound (s.y * 10) - st.currentY, st.body, st.stitchCount,
      st.currentX, st.currentY⟩
    dsimp only at this
    omega

theorem dstFold_preserves_count :
    ∀ (l : List Stitch) (st : DstState),
      st.body.length = st.stitchCount →
      (l.foldl dstStep st).body.length = (l.foldl dstStep st).stitchCount := by
  intro l
  induction l with
  | nil => intro st h; exact h
  | cons s rest ih =>
    intro st h
    exact ih (dstStep st s) (dstStep_preserves_count st s h)

/-- Claim C4: for every input stitch list, the stitch count written into the
DST header's ST field equals the number of 3-byte body records minus one —
the synthetic zero-delta terminator record is appended after the counting
loop and is not counted, while every other record (including the
intermediate oversize-split jump records) is counted. -/
theorem c4_dst_header_count (stitches : List Stitch) :
    (dstBody stitches).length = dstStitchCount stitches + 1 := by
  unfold dstBody dstStitchCount dstLoop
  have := dstFold_preserves_count stitches {} rfl
  simp only [List.length_append, List.length_singleton]
  unfold dstLoop at this
  omega

/-! ## Claim C5 — the concrete S4 header scenario -/

theorem jsRound_zero10 : jsRound ((0 : ℝ) * 10) = 0 := by
  unfold jsRound; norm_num

theorem jsRound_five10 : jsRound ((5 : ℝ) * 10) = 50 := by
  unfold jsRound; norm_num

theorem jsRound_negThreePointTwo10 : jsRound ((-3.2 : ℝ) * 10) = -32 := by
  unfold jsRound; norm_num

/-- The split loop does nothing when both deltas already fit in 121 units. -/
theorem dstSplitLoop_noop (st : DstSplitSt) (hx : st.dx.natAbs ≤ 121)
    (hy : st.dy.natAbs ≤ 121) : dstSplitLoop st = st := by
  rw [dstSplitLoop, dif_neg (by omega)]

/-- Evaluation rule for one createDstFile loop iteration whose delta needs no
splitting. -/
theorem dstStep_small (st : DstState) (s : Stitch) (tx ty : ℤ)
    (hs : ¬ s.type = StitchKind.ending)
    (hx : jsRound (s.x * 10) = tx) (hy : jsRound (s.y * 10) = ty)
    (hdx : (tx - st.currentX).natAbs ≤ 121)
    (hdy : (ty - st.currentY).natAbs ≤ 121) :
    dstStep st s =
      { currentX := tx, currentY := ty,
        minX := optMinUpd st.minX tx, maxX := optMaxUpd st.maxX tx,
        minY := optMinUpd st.minY ty, maxY := optMaxUpd st.maxY ty,
        body := st.body ++ [encodeTajimaStitch (tx - st.currentX)
          (ty - st.currentY)
          (if s.type = StitchKind.jump then DstKind.jump
           else if s.type = StitchKind.colorChange then DstKind.stop
           else DstKind.stitch)],
        stitchCount := st.stitchCount + 1 } := by
  unfold dstStep
  rw [if_neg hs]
  simp only [hx, hy]
  rw [dstSplitLoop_noop ⟨tx - st.currentX, ty - st.currentY, st.body,
    st.stitchCount, st.currentX, st.currentY⟩ hdx hdy]
  dsimp only
  congr 1
  · omega
  · omega

/-- Evaluation of the createDstFile loop on the S4 scenario. -/
theorem dstLoop_s4 :
    dstLoop s4Stitches =
      { currentX := 50, currentY := -32,
        minX := some 0, maxX := some 50, minY := some (-32), maxY := some 0,
        body := [encodeTajimaStitch 0 0 DstKind.stitch,
                 encodeTajimaStitch 50 (-32) DstKind.stitch],
        stitchCount := 2 } := by
  unfold dstLoop s4Stitches
  simp only [List.foldl]
  rw [dstStep_small {} { x := 0, y := 0, type := StitchKind.stitch } 0 0
    (by decide) jsRound_zero10 jsRound_zero10 (by decide) (by decide)]
  rw [dstStep_small _ { x := 5, y := -3.2, type := StitchKind.stitch }
    50 (-32) (by decide) jsRound_five10 jsRound_negThreePointTwo10
    (by decide) (by decide)]
  simp only [dstStep, reduceIte]
  decide

/-- Claim C5 counterexample: on the S4 stitch list the ST header field is
ST:0000002, not the claimed ST:0000003 — the end record is skipped by the
counting loop and the synthetic terminator record is never counted. -/
theorem c5_counterexample : dstHeaderST s4Stitches ≠ "ST:0000003" := by
  unfold dstHeaderST dstStitchCount
  rw [dstLoop_s4]
  decide

/-- Claim C5 amended: on the S4 stitch list the bounds header fields are
+X:00050, -X:00000, +Y:00000, -Y:00032 as claimed, and the ST field is
ST:0000002 (two counted records: the terminator is appended uncounted and
the end record emits nothing). -/
theorem c5_amended_header :
    dstHeaderBounds s4Stitches
        = ["+X:00050", "-X:00000", "+Y:00000", "-Y:00032"] ∧
    dstHeaderST s4Stitches = "ST:0000002" := by
  unfold dstHeaderBounds dstHeaderST dstPlusX dstMinusX dstPlusY dstMinusY
    dstStitchCount
  rw [dstLoop_s4]
  exact ⟨by decide, by decide⟩

/-! ## Claim C10 — zero-delta stitches vanish from EXP but not from DST -/

/-- The EXP split loop emits nothing when the delta is zero. -/
theorem expSplitLoop_zero (isJump : Bool) (bytes : List ℕ) (cx cy : ℤ) :
    expSplitLoop isJump 0 0 bytes cx cy = (bytes, cx, cy) := by
  rw [expSplitLoop, dif_neg (by omega)]

/-- Claim C10: a record of kind stitch whose rounded 0.1 mm position equals
the encoder's current position contributes no bytes at all to the EXP body
(the split loop exits immediately on a zero delta), while the DST encoder
emits one zero-delta 3-byte record for the same stitch. -/
theorem c10_zero_delta_stitch (s : Stitch) (est : ExpState) (dst : DstState)
    (hs : s.type = StitchKind.stitch)
    (hex : jsRound (s.x * 10) = est.currentX)
    (hey : jsRound (s.y * 10) = est.currentY)
    (hdx : jsRound (s.x * 10) = dst.currentX)
    (hdy : jsRound (s.y * 10) = dst.currentY) :
    expStep est s = est ∧
    dstStep dst s =
      { currentX := dst.currentX, currentY := dst.currentY,
        minX := optMinUpd dst.minX dst.currentX,
        maxX := optMaxUpd dst.maxX dst.currentX,
        minY := optMinUpd dst.minY dst.currentY,
        maxY := optMaxUpd dst.maxY dst.currentY,
        body := dst.body ++ [encodeTajimaStitch 0 0 DstKind.stitch],
        stitchCount := dst.stitchCount + 1 } := by
  constructor
  · unfold expStep
    rw [if_neg (by simp [hs]), if_neg (by simp [hs]), if_neg (by simp [hs])]
    simp only [hex, hey, sub_self]
    rw [expSplitLoop_zero]
  · rw [dstStep_small dst s dst.currentX dst.currentY (by simp [hs]) hdx hdy
      (by omega) (by omega)]
    simp [hs, sub_self]

/-! ## No record of kind ending is produced before the final append -/

/-- No element of the list is an end record. -/
def NoEnd (l : List Stitch) : Prop :=
  ∀ s ∈ l, s.type ≠ StitchKind.ending

theorem noEnd_nil : NoEnd [] := by
  intro s hs; cases hs

theorem noEnd_append {a b : List Stitch} (ha : NoEnd a) (hb : NoEnd b) :
    NoEnd (a ++ b) := by
  intro s hs
  rcases List.mem_append.mp hs with h | h
  · exact ha s h
  · exact hb s h

theorem noEnd_cons {s : Stitch} {l : List Stitch}
    (hs : s.type ≠ StitchKind.ending) (hl : NoEnd l) : NoEnd (s :: l) := by
  intro t ht
  rcases List.mem_cons.mp ht with h | h
  · simpa [h] using hs
  · exact hl t h

/-- Every element of the list is a plain stitch or a jump: the only kinds
the three generators and the underlay produce. -/
def StitchOrJump (l : List Stitch) : Prop :=
  ∀ s ∈ l, s.type = StitchKind.stitch ∨ s.type = StitchKind.jump

theorem sj_nil : StitchOrJump [] := by
  intro s hs; cases hs

theorem sj_append {a b : List Stitch} (ha : StitchOrJump a)
    (hb : StitchOrJump b) : StitchOrJump (a ++ b) := by
  intro s hs
  rcases List.mem_append.mp hs with h | h
  · exact ha s h
  · exact hb s h

theorem sj_cons {s : Stitch} {l : List Stitch}
    (hs : s.type = StitchKind.stitch ∨ s.type = StitchKind.jump)
    (hl : StitchOrJump l) : StitchOrJump (s :: l) := by
  intro t ht
  rcases List.mem_cons.mp ht with h | h
  · rw [h]; exact hs
  · exact hl t h

theorem sj_runSegment (L : ℝ) (c : ℕ) (hx : String) (p q : Point) :
    StitchOrJump (runSegment L c hx p q) := by
  intro s hs
  unfold runSegment at hs
  dsimp only at hs
  split at hs
  · rcases List.mem_map.mp hs with ⟨j, _, rfl⟩
    simp
  · rcases List.mem_singleton.mp hs with rfl
    simp

theorem sj_runEmit (L : ℝ) (c : ℕ) (hx : String) :
    ∀ (rest : List Point) (prev : Point),
      StitchOrJump (runEmit L c hx prev rest) := by
  intro rest
  induction rest with
  | nil => intro prev; exact sj_nil
  | cons q t ih =>
    intro prev
    exact sj_append (sj_runSegment _ _ _ _ _) (ih q)

theorem sj_generateRunningStitches (path : List Point)
    (config : ProcessingConfig) (c : ℕ) (hx : String) :
    StitchOrJump (generateRunningStitches path config c hx) := by
  unfold generateRunningStitches
  split
  · exact sj_nil
  · split
    · exact sj_nil
    · exact sj_nil
    · exact sj_cons (by simp) (sj_runEmit _ _ _ _ _)

theorem sj_satinCrossing (config : ProcessingConfig) (c : ℕ)
    (hx : String) (i : ℕ) (p1 p2 : Point) :
    StitchOrJump (satinCrossing config c hx i p1 p2) := by
  intro s hs
  unfold satinCrossing at hs
  dsimp only at hs
  split at hs
  · rcases List.mem_cons.mp hs with rfl | hs
    · simp
    · rcases List.mem_append.mp hs with hs | hs
      · rcases List.mem_map.mp hs with ⟨j, _, rfl⟩
        simp
      · rcases List.mem_singleton.mp hs with rfl
        simp
  · rcases List.mem_cons.mp hs with rfl | hs
    · simp
    · rcases List.mem_singleton.mp hs with rfl
      simp

theorem sj_generateSatinStitches (path : List Point)
    (config : ProcessingConfig) (c : ℕ) (hx : String) :
    StitchOrJump (generateSatinStitches path config c hx) := by
  intro s hs
  unfold generateSatinStitches at hs
  split at hs
  · cases hs
  · rcases List.mem_join.mp hs with ⟨l, hl, hsl⟩
    rcases List.mem_map.mp hl with ⟨i, _, rfl⟩
    exact sj_satinCrossing _ _ _ _ _ _ s hsl

theorem sj_tatamiAppendSegment (config : ProcessingConfig) (c : ℕ)
    (hx : String) (invAngle rowSpacing y : ℝ) (acc : List Stitch)
    (seg : ℝ × ℝ) (hacc : StitchOrJump acc) :
    StitchOrJump
      (tatamiAppendSegment config c hx invAngle rowSpacing y acc seg) := by
  unfold tatamiAppendSegment
  split
  · exact hacc
  · dsimp only
    split
    · exact hacc
    · split
      · refine sj_append (sj_append hacc (sj_cons (by simp) sj_nil)) ?_
        intro s hs
        rcases List.mem_map.mp hs with ⟨p, _, rfl⟩
        simp
      · split
        · refine sj_append (sj_append hacc (sj_cons (by simp) sj_nil)) ?_
          intro s hs
          rcases List.mem_map.mp hs with ⟨p, _, rfl⟩
          simp
        · split
          · refine sj_append (sj_append hacc (sj_cons (by simp) sj_nil)) ?_
            intro s hs
            rcases List.mem_map.mp hs with ⟨p, _, rfl⟩
            simp
          · refine sj_append (sj_append hacc sj_nil) ?_
            intro s hs
            rcases List.mem_map.mp hs with ⟨p, _, rfl⟩
            simp

theorem sj_foldl {α : Type} (f : List Stitch → α → List Stitch)
    (hf : ∀ acc a, StitchOrJump acc → StitchOrJump (f acc a)) :
    ∀ (l : List α) (acc : List Stitch), StitchOrJump acc →
      StitchOrJump (l.foldl f acc) := by
  intro l
  induction l with
  | nil => intro acc h; exact h
  | cons a t ih => intro acc h; exact ih _ (hf acc a h)

theorem sj_generateTatamiStitches (paths : List (List Point))
    (config : ProcessingConfig) (c : ℕ) (hx : String) :
    StitchOrJump (generateTatamiStitches paths config c hx) := by
  unfold generateTatamiStitches
  split
  · exact sj_nil
  · dsimp only
    split
    · refine sj_foldl _ (fun acc y hacc => ?_) _ _ sj_nil
      exact sj_foldl _
        (fun acc2 sg hacc2 => sj_tatamiAppendSegment _ _ _ _ _ _ _ _ hacc2)
        _ _ hacc
    · exact sj_nil

theorem sj_map_structure (l : List Stitch) (h : StitchOrJump l) :
    StitchOrJump (l.map (fun s => { s with isStructure := true })) := by
  intro s hs
  rcases List.mem_map.mp hs with ⟨t, ht, rfl⟩
  exact h t ht

theorem sj_generateUnderlay (path : List Point)
    (config : ProcessingConfig) (c : ℕ) (hx : String) :
    StitchOrJump (generateUnderlay path config c hx) := by
  unfold generateUnderlay
  split
  · exact sj_nil
  · refine sj_map_structure _ ?_
    split
    · split
      · exact sj_generateRunningStitches _ _ _ _
      · dsimp only
        split
        · exact sj_generateSatinStitches _ _ _ _
        · exact sj_nil
    · dsimp only
      split
      · split
        · exact sj_map_structure _ (sj_generateRunningStitches _ _ _ _)
        · refine sj_append
            (sj_map_structure _ (sj_generateRunningStitches _ _ _ _))
            (sj_cons (by simp) sj_nil)
      · exact sj_nil

theorem sj_mainStitches (config : ProcessingConfig) (path : List Point)
    (i : ℕ) (color : String) :
    StitchOrJump (mainStitches config path i color) := by
  unfold mainStitches
  split
  · exact sj_generateTatamiStitches _ _ _ _
  · split
    · exact sj_generateSatinStitches _ _ _ _
    · exact sj_generateRunningStitches _ _ _ _

theorem sj_addTieIn (l : List Stitch) (h : StitchOrJump l) :
    StitchOrJump (addTieIn l) := by
  unfold addTieIn
  split
  · exact sj_nil
  · split
    · exact h
    · exact sj_cons (by simp) (sj_cons (by simp) h)

theorem noEnd_of_sj {l : List Stitch} (h : StitchOrJump l) : NoEnd l := by
  intro s hs
  rcases h s hs with h1 | h1 <;> simp [h1]

theorem noEnd_runSegment (L : ℝ) (c : ℕ) (hx : String) (p q : Point) :
    NoEnd (runSegment L c hx p q) :=
  noEnd_of_sj (sj_runSegment L c hx p q)

theorem noEnd_runEmit (L : ℝ) (c : ℕ) (hx : String) :
    ∀ (rest : List Point) (prev : Point), NoEnd (runEmit L c hx prev rest) :=
  fun rest prev => noEnd_of_sj (sj_runEmit L c hx rest prev)

theorem noEnd_generateRunningStitches (path : List Point)
    (config : ProcessingConfig) (c : ℕ) (hx : String) :
    NoEnd (generateRunningStitches path config c hx) :=
  noEnd_of_sj (sj_generateRunningStitches path config c hx)

theorem noEnd_satinCrossing (config : ProcessingConfig) (c : ℕ)
    (hx : String) (i : ℕ) (p1 p2 : Point) :
    NoEnd (satinCrossing config c hx i p1 p2) :=
  noEnd_of_sj (sj_satinCrossing config c hx i p1 p2)

theorem noEnd_generateSatinStitches (path : List Point)
    (config : ProcessingConfig) (c : ℕ) (hx : String) :
    NoEnd (generateSatinStitches path config c hx) :=
  noEnd_of_sj (sj_generateSatinStitches path config c hx)

/-- Fold preservation of the no-end invariant. -/
theorem noEnd_foldl {α : Type} (f : List Stitch → α → List Stitch)
    (hf : ∀ acc a, NoEnd acc → NoEnd (f acc a)) :
    ∀ (l : List α) (acc : List Stitch), NoEnd acc → NoEnd (l.foldl f acc) := by
  intro l
  induction l with
  | nil => intro acc h; exact h
  | cons a t ih => intro acc h; exact ih _ (hf acc a h)

theorem noEnd_generateTatamiStitches (paths : List (List Point))
    (config : ProcessingConfig) (c : ℕ) (hx : String) :
    NoEnd (generateTatamiStitches paths config c hx) :=
  noEnd_of_sj (sj_generateTatamiStitches paths config c hx)

theorem noEnd_generateUnderlay (path : List Point)
    (config : ProcessingConfig) (c : ℕ) (hx : String) :
    NoEnd (generateUnderlay path config c hx) :=
  noEnd_of_sj (sj_generateUnderlay path config c hx)

theorem noEnd_addTieIn (l : List Stitch) (h : NoEnd l) :
    NoEnd (addTieIn l) := by
  unfold addTieIn
  split
  · exact noEnd_nil
  · split
    · exact h
    · exact noEnd_cons (by simp) (noEnd_cons (by simp) h)

theorem noEnd_addTieOff (l : List Stitch) (h : NoEnd l) :
    NoEnd (addTieOff l) := by
  unfold addTieOff
  split
  · exact noEnd_nil
  · split
    · exact h
    · exact noEnd_append h
        (noEnd_cons (by simp) (noEnd_cons (by simp)
          (noEnd_cons (by simp) noEnd_nil)))

theorem noEnd_mainStitches (config : ProcessingConfig) (path : List Point)
    (i : ℕ) (color : String) : NoEnd (mainStitches config path i color) := by
  unfold mainStitches
  split
  · exact noEnd_generateTatamiStitches _ _ _ _
  · split
    · exact noEnd_generateSatinStitches _ _ _ _
    · exact noEnd_generateRunningStitches _ _ _ _

theorem noEnd_pathUnderlayPart (i : ℕ) (color : String)
    (layerStitches underlay : List Stitch) (h : NoEnd layerStitches)
    (hu : NoEnd underlay) :
    NoEnd (pathUnderlayPart i color layerStitches underlay) := by
  unfold pathUnderlayPart
  split
  · exact h
  · refine noEnd_append (noEnd_append h ?_) (noEnd_addTieIn _ hu)
    split
    · exact noEnd_nil
    · split
      · exact noEnd_nil
      · exact noEnd_cons (by simp) noEnd_nil

theorem noEnd_pathGlue (config : ProcessingConfig) (i : ℕ) (color : String)
    (ls1 main : List Stitch) : NoEnd (pathGlue config i color ls1 main) := by
  unfold pathGlue
  split
  · exact noEnd_nil
  · split
    · split
      · exact noEnd_cons (by simp) (noEnd_cons (by simp) noEnd_nil)
      · exact noEnd_cons (by simp) noEnd_nil
    · exact noEnd_nil

theorem noEnd_pathMainPart (config : ProcessingConfig) (i : ℕ)
    (color : String) (ls1 : List Stitch) (ue : Bool) (main0 : List Stitch)
    (h : NoEnd ls1) (hm : NoEnd main0) :
    NoEnd (pathMainPart config i color ls1 ue main0) := by
  unfold pathMainPart
  split
  · exact h
  · refine noEnd_append (noEnd_append h (noEnd_pathGlue _ _ _ _ _)) ?_
    refine noEnd_addTieOff _ ?_
    split
    · exact noEnd_addTieIn _ hm
    · exact hm

theorem noEnd_digitizePath (config : ProcessingConfig) (i : ℕ)
    (color : String) (layerStitches : List Stitch) (path : List Point)
    (h : NoEnd layerStitches) :
    NoEnd (digitizePath config i color layerStitches path) := by
  unfold digitizePath
  exact noEnd_pathMainPart _ _ _ _ _ _
    (noEnd_pathUnderlayPart _ _ _ _ h (noEnd_generateUnderlay _ _ _ _))
    (noEnd_mainStitches _ _ _ _)

theorem noEnd_digitizeLayer (config : ProcessingConfig) (i : ℕ)
    (layer : VectorLayer) : NoEnd (digitizeLayer config i layer) := by
  unfold digitizeLayer
  exact noEnd_foldl _
    (fun acc p hacc => noEnd_digitizePath _ _ _ _ _ hacc) _ _ noEnd_nil

theorem noEnd_layerGlue (i : ℕ) (color : String)
    (allStitches ls : List Stitch) :
    NoEnd (layerGlue i color allStitches ls) := by
  unfold layerGlue
  split
  · exact noEnd_cons (by simp) (noEnd_cons (by simp) noEnd_nil)
  · exact noEnd_nil

theorem noEnd_layerStep (config : ProcessingConfig)
    (allStitches : List Stitch) (il : ℕ × VectorLayer)
    (h : NoEnd allStitches) : NoEnd (layerStep config allStitches il) := by
  unfold layerStep
  dsimp only
  split
  · exact h
  · split
    · exact noEnd_append h (noEnd_digitizeLayer _ _ _)
    · exact noEnd_append (noEnd_append h (noEnd_layerGlue _ _ _ _))
        (noEnd_digitizeLayer _ _ _)

theorem noEnd_digitizeAll (layers : List VectorLayer)
    (config : ProcessingConfig) : NoEnd (digitizeAll layers config) := by
  unfold digitizeAll
  exact noEnd_foldl _ (fun acc il hacc => noEnd_layerStep _ _ _ hacc) _ _
    noEnd_nil

theorem noEnd_removeSmallGo (minLen : ℝ) :
    ∀ (l : List Stitch) (prev : Stitch), NoEnd l →
      NoEnd (removeSmallGo minLen prev l) := by
  intro l
  induction l with
  | nil => intro prev _; exact noEnd_nil
  | cons c t ih =>
    intro prev h
    unfold removeSmallGo
    have hc : c.type ≠ StitchKind.ending := h c (List.mem_cons_self _ _)
    have ht : NoEnd t := fun s hs => h s (List.mem_cons_of_mem _ hs)
    split
    · exact ih prev ht
    · exact noEnd_cons hc (ih c ht)

theorem noEnd_removeSmallStitches (l : List Stitch) (minLen : ℝ)
    (h : NoEnd l) : NoEnd (removeSmallStitches l minLen) := by
  unfold removeSmallStitches
  match l, h with
  | [], _ => exact noEnd_nil
  | s0 :: rest, h =>
    exact noEnd_cons (h s0 (List.mem_cons_self _ _))
      (noEnd_removeSmallGo _ _ _ (fun s hs => h s (List.mem_cons_of_mem _ hs)))

/-! ## Claim C2 — exactly one end record, and it is last -/

/-- Claim C2: whenever digitizeDesign returns a nonempty stitch sequence, it
contains exactly one record of kind end and that record is the last element
(the cleaned sequence contains no end record, and the pipeline appends
exactly one). The JS source never returns an empty sequence — even an empty
design yields a spurious undefined entry followed by the end record — so
the nonemptiness hypothesis holds for every run of the source. -/
theorem c2_single_end_record (layers : List VectorLayer)
    (config : ProcessingConfig) (h : digitizeDesign layers config ≠ []) :
    (digitizeDesign layers config).countP
        (fun s => decide (s.type = StitchKind.ending)) = 1 ∧
    ((digitizeDesign layers config).getLast h).type = StitchKind.ending := by
  have hne : NoEnd (removeSmallStitches (digitizeAll layers config)
      config.minStitchLengthMm) :=
    noEnd_removeSmallStitches _ _ (noEnd_digitizeAll layers config)
  unfold digitizeDesign at h ⊢
  set cleaned := removeSmallStitches (digitizeAll layers config)
    config.minStitchLengthMm with hcl
  cases hlast : cleaned.getLast? with
  | none =>
    simp only [hlast] at h
    have hnil : cleaned = [] := by
      cases hc : cleaned with
      | nil => rfl
      | cons a t => rw [hc] at hlast; simp at hlast
    exact absurd hnil h
  | some last =>
    simp only [hlast] at h ⊢
    constructor
    · rw [List.countP_append]
      have h0 : cleaned.countP
          (fun s => decide (s.type = StitchKind.ending)) = 0 := by
        rw [List.countP_eq_zero]
        intro s hs
        simpa using hne s hs
      simp [h0]
    · rw [List.getLast_append]
      simp

/-- Witness for claim C10 at the origin stitch and the two initial encoder
states. -/
theorem c10_zero_delta_stitch_witness :
    expStep {} { x := 0, y := 0, type := StitchKind.stitch }
        = ({} : ExpState) ∧
    dstStep {} { x := 0, y := 0, type := StitchKind.stitch }
        = { currentX := 0, currentY := 0,
            minX := optMinUpd none 0, maxX := optMaxUpd none 0,
            minY := optMinUpd none 0, maxY := optMaxUpd none 0,
            body := [] ++ [encodeTajimaStitch 0 0 DstKind.stitch],
            stitchCount := 0 + 1 } :=
  c10_zero_delta_stitch { x := 0, y := 0, type := StitchKind.stitch } {} {}
    rfl jsRound_zero10 jsRound_zero10 jsRound_zero10 jsRound_zero10

/-! ## Claim C3 — what may follow a trim record -/

theorem foldl_preserves {α β : Type} (P : β → Prop) (f : β → α → β)
    (hf : ∀ acc a, P acc → P (f acc a)) :
    ∀ (l : List α) (acc : β), P acc → P (l.foldl f acc) := by
  intro l
  induction l with
  | nil => intro acc h; exact h
  | cons a t ih => intro acc h; exact ih _ (hf acc a h)

theorem noTrim_of_sj {l : List Stitch} (h : StitchOrJump l) :
    ∀ s ∈ l, s.type ≠ StitchKind.trim := by
  intro s hs
  rcases h s hs with h1 | h1 <;> simp [h1]

theorem trimChain_of_noTrim :
    ∀ (l : List Stitch), (∀ s ∈ l, s.type ≠ StitchKind.trim) →
      List.Chain' trimNext l
  | [], _ => List.chain'_nil
  | [_], _ => List.chain'_singleton _
  | a :: b :: t, h => by
    rw [List.chain'_cons]
    refine ⟨fun ha => absurd ha (h a (by simp)), ?_⟩
    exact trimChain_of_noTrim (b :: t)
      (fun s hs => h s (List.mem_cons_of_mem _ hs))

/-- A block whose head, if any, is a jump, color change, or trim can be
appended after anything without breaking the trim discipline. -/
def HeadSafe (b : List Stitch) : Prop :=
  ∀ y ∈ b.head?, y.type = StitchKind.jump ∨
    y.type = StitchKind.colorChange ∨ y.type = StitchKind.trim

theorem trimChain_append {l b : List Stitch} (hl : List.Chain' trimNext l)
    (hb : List.Chain' trimNext b) (hs : HeadSafe b) :
    List.Chain' trimNext (l ++ b) := by
  rw [List.chain'_append]
  refine ⟨hl, hb, ?_⟩
  intro x hx y hy _
  rcases hs y hy with h | h | h
  · exact Or.inl h
  · exact Or.inr (Or.inl h)
  · exact Or.inr (Or.inr (Or.inr h))

theorem trimChain_addTieOff (l : List Stitch)
    (h : ∀ s ∈ l, s.type ≠ StitchKind.trim) :
    List.Chain' trimNext (addTieOff l) := by
  unfold addTieOff
  split
  · exact List.chain'_nil
  · split
    · exact trimChain_of_noTrim l h
    · rw [List.chain'_append]
      refine ⟨trimChain_of_noTrim l h, ?_, ?_⟩
      · rw [List.chain'_cons]
        refine ⟨fun hh => absurd hh (by simp), ?_⟩
        rw [List.chain'_cons]
        exact ⟨fun hh => absurd hh (by simp), List.chain'_singleton _⟩
      · intro x hx y hy
        intro hx2
        exact absurd hx2 (h x (List.mem_of_mem_getLast? hx))

theorem trimChain_addTieIn (l : List Stitch)
    (h : ∀ s ∈ l, s.type ≠ StitchKind.trim) :
    ∀ s ∈ addTieIn l, s.type ≠ StitchKind.trim := by
  unfold addTieIn
  split
  · intro s hs; cases hs
  · split
    · exact h
    · intro s hs
      rcases List.mem_cons.mp hs with rfl | hs
      · simp
      · rcases List.mem_cons.mp hs with rfl | hs
        · simp
        · exact h s hs

theorem trimChain_pathUnderlayPart (i : ℕ) (color : String)
    (ls underlay : List Stitch) (h : List.Chain' trimNext ls)
    (hu : StitchOrJump underlay) :
    List.Chain' trimNext (pathUnderlayPart i color ls underlay) := by
  unfold pathUnderlayPart
  split
  · exact h
  · dsimp only
    have htied : List.Chain' trimNext (addTieIn underlay) :=
      trimChain_of_noTrim _ (trimChain_addTieIn underlay (noTrim_of_sj hu))
  
    split
    · next hempty =>
      rw [List.isEmpty_iff.mp hempty]
      simpa using htied
    · split
      · next heq =>
        rw [heq]
        simpa using h
      · rw [List.append_assoc, List.chain'_append]
        refine ⟨h, ?_, ?_⟩
        · rw [List.chain'_append]
          refine ⟨List.chain'_singleton _, htied, ?_⟩
          intro x hx y _ hx2
          simp only [List.getLast?_singleton, Option.mem_def,
            Option.some.injEq] at hx
          rw [← hx] at hx2
          simp at hx2
        · intro x _ y hy _
          simp only [List.singleton_append, List.head?_cons,
            Option.mem_def, Option.some.injEq] at hy
          rw [← hy]
          left
          rfl

theorem trimChain_pathMainPart (config : ProcessingConfig) (i : ℕ)
    (color : String) (ls1 : List Stitch) (ue : Bool) (main0 : List Stitch)
    (h1 : List.Chain' trimNext ls1)
    (hm : ∀ s ∈ main0, s.type ≠ StitchKind.trim) :
    List.Chain' trimNext (pathMainPart config i color ls1 ue main0) := by
  unfold pathMainPart
  split
  · exact h1
  · dsimp only
    have hmainNT : ∀ s ∈ (if ue then addTieIn main0 else main0),
        s.type ≠ StitchKind.trim := by
      split
      · exact trimChain_addTieIn main0 hm
      · exact hm
    have hmain : List.Chain' trimNext
        (addTieOff (if ue then addTieIn main0 else main0)) :=
      trimChain_addTieOff _ hmainNT
    unfold pathGlue
    split
    · next hempty =>
      rw [List.isEmpty_iff.mp hempty]
      simpa using hmain
    · split
      · split
        · -- trim then jump glue
          rw [List.append_assoc, List.chain'_append]
          refine ⟨h1, ?_, ?_⟩
          · rw [List.chain'_append]
            refine ⟨?_, hmain, ?_⟩
            · rw [List.chain'_cons]
              exact ⟨fun _ => Or.inl rfl, List.chain'_singleton _⟩
            · intro x hx y _ hx2
              simp only [List.getLast?_cons_cons, List.getLast?_singleton,
                Option.mem_def, Option.some.injEq] at hx
              rw [← hx] at hx2
              simp at hx2
          · intro x _ y hy _
            simp only [List.cons_append, List.head?_cons, Option.mem_def,
              Option.some.injEq] at hy
            rw [← hy]
            right; right; right
            rfl
        · -- jump-only glue
          rw [List.append_assoc, List.chain'_append]
          refine ⟨h1, ?_, ?_⟩
          · rw [List.chain'_append]
            refine ⟨List.chain'_singleton _, hmain, ?_⟩
            · intro x hx y _ hx2
              simp only [List.getLast?_singleton, Option.mem_def,
                Option.some.injEq] at hx
              rw [← hx] at hx2
              simp at hx2
          · intro x _ y hy _
            simp only [List.singleton_append, List.head?_cons,
              Option.mem_def, Option.some.injEq] at hy
            rw [← hy]
            left
            rfl
      · -- one of the two option scrutinees is none: empty glue
        next hnone =>
        rw [List.append_assoc, List.chain'_append]
        refine ⟨h1, by simpa using hmain, ?_⟩
        intro x hx y hy _
        rw [List.nil_append] at hy
        exact absurd (hnone x y hx hy) not_false

theorem trimChain_digitizePath (config : ProcessingConfig) (i : ℕ)
    (color : String) (ls : List Stitch) (path : List Point)
    (h : List.Chain' trimNext ls) :
    List.Chain' trimNext (digitizePath config i color ls path) := by
  unfold digitizePath
  exact trimChain_pathMainPart _ _ _ _ _ _
    (trimChain_pathUnderlayPart _ _ _ _ h (sj_generateUnderlay _ _ _ _))
    (noTrim_of_sj (sj_mainStitches _ _ _ _))

theorem trimChain_digitizeLayer (config : ProcessingConfig) (i : ℕ)
    (layer : VectorLayer) :
    List.Chain' trimNext (digitizeLayer config i layer) := by
  unfold digitizeLayer
  exact foldl_preserves (List.Chain' trimNext) _
    (fun acc p hacc => trimChain_digitizePath _ _ _ _ _ hacc) _ _
    List.chain'_nil

theorem trimChain_layerStep (config : ProcessingConfig)
    (allStitches : List Stitch) (il : ℕ × VectorLayer)
    (h : List.Chain' trimNext allStitches) :
    List.Chain' trimNext (layerStep config allStitches il) := by
  unfold layerStep
  dsimp only
  split
  · exact h
  · split
    · next hempty =>
      rw [List.isEmpty_iff.mp hempty]
      simpa using trimChain_digitizeLayer _ _ _
    · unfold layerGlue
      split
      · rw [List.append_assoc, List.chain'_append]
        refine ⟨h, ?_, ?_⟩
        · rw [List.chain'_append]
          refine ⟨?_, trimChain_digitizeLayer _ _ _, ?_⟩
          · rw [List.chain'_cons]
            exact ⟨fun hh => absurd hh (by simp), List.chain'_singleton _⟩
          · intro x hx y _ hx2
            simp only [List.getLast?_cons_cons, List.getLast?_singleton,
              Option.mem_def, Option.some.injEq] at hx
            rw [← hx] at hx2
            simp at hx2
        · intro x _ y hy _
          simp only [List.cons_append, List.head?_cons, Option.mem_def,
            Option.some.injEq] at hy
          rw [← hy]
          right; left
          rfl
      · next hnone =>
        rw [List.append_assoc, List.chain'_append]
        refine ⟨h, by simpa using trimChain_digitizeLayer _ _ _, ?_⟩
        intro x hx y hy _
        rw [List.nil_append] at hy
        exact absurd (hnone x y hx hy) not_false

theorem trimChain_digitizeAll (layers : List VectorLayer)
    (config : ProcessingConfig) :
    List.Chain' trimNext (digitizeAll layers config) := by
  unfold digitizeAll
  exact foldl_preserves (List.Chain' trimNext) _
    (fun acc il hacc => trimChain_layerStep _ _ _ hacc) _ _ List.chain'_nil

theorem trimChain_removeSmallGo (minLen : ℝ) :
    ∀ (l : List Stitch) (prev : Stitch),
      List.Chain' trimNext (prev :: l) →
      List.Chain' trimNext (prev :: removeSmallGo minLen prev l) := by
  intro l
  induction l with
  | nil =>
    intro prev _
    exact List.chain'_singleton _
  | cons c rest ih =>
    intro prev h
    have hpc : ∀ y ∈ (c :: rest).head?, trimNext prev y :=
      (List.chain'_cons'.mp h).1
    have h2 : List.Chain' trimNext (c :: rest) := (List.chain'_cons'.mp h).2
    unfold removeSmallGo
    split
    · next hcond =>
      -- the dropped record is a plain stitch, so prev cannot be a trim
      have hprev : prev.type ≠ StitchKind.trim := by
        intro hpt
        rcases hpc c rfl hpt with h3 | h3 | h3 | h3 <;>
          rw [hcond.1] at h3 <;> cases h3
      refine ih prev (List.chain'_cons'.mpr ⟨?_, h2.tail⟩)
      intro y _ hpt
      exact absurd hpt hprev
    · refine List.chain'_cons'.mpr ⟨?_, ih c h2⟩
      intro y hy
      simp only [List.head?_cons, Option.mem_def, Option.some.injEq] at hy
      rw [← hy]
      exact hpc c rfl

theorem trimChain_removeSmallStitches (l : List Stitch) (minLen : ℝ)
    (h : List.Chain' trimNext l) :
    List.Chain' trimNext (removeSmallStitches l minLen) := by
  unfold removeSmallStitches
  match l, h with
  | [], _ => exact List.chain'_nil
  | s0 :: rest, h => exact trimChain_removeSmallGo minLen rest s0 h

/-- Claim C3 amended: in every sequence produced by digitizeDesign, every
record of kind trim is immediately followed by a record of kind jump,
color_change, end, or trim — and a trim never ends the sequence (the last
record, when one exists, is never a trim). The claim's original successor
list omitted trim: when a path's tie-off trim abuts the composer's
inter-path trim insertion, two consecutive trims occur. -/
theorem c3_amended_trim_successor (layers : List VectorLayer)
    (config : ProcessingConfig) :
    List.Chain' trimNext (digitizeDesign layers config) ∧
    ((digitizeDesign layers config).getLast?.all
      (fun s => decide (s.type ≠ StitchKind.trim))) = true := by
  have hchain : List.Chain' trimNext
      (removeSmallStitches (digitizeAll layers config)
        config.minStitchLengthMm) :=
    trimChain_removeSmallStitches _ _ (trimChain_digitizeAll layers config)
  unfold digitizeDesign
  set cleaned := removeSmallStitches (digitizeAll layers config)
    config.minStitchLengthMm with hcl
  cases hlast : cleaned.getLast? with
  | none =>
    have hnil : cleaned = [] := by
      cases hc : cleaned with
      | nil => rfl
      | cons a t => rw [hc] at hlast; simp at hlast
    simp [hnil]
  | some last =>
    dsimp only
    simp only [hlast]
    constructor
    · rw [List.chain'_append]
      refine ⟨hchain, List.chain'_singleton _, ?_⟩
      intro x _ y hy _
      simp only [List.head?_cons, Option.mem_def, Option.some.injEq] at hy
      rw [← hy]
      right; right; left
      rfl
    · rw [List.getLast?_append]
      simp

/-! ## Claim C6 — the running generator and its stitch-length bound -/

theorem dist_same_y (x1 x2 y : ℝ) :
    Emb.dist ⟨x1, y⟩ ⟨x2, y⟩ = |x1 - x2| := by
  unfold Emb.dist
  rw [show (x1 - x2) ^ 2 + (y - y) ^ 2 = (x1 - x2) ^ 2 by ring,
    Real.sqrt_sq_eq_abs]

theorem interpolate_zero (p q : Point) : interpolatePoints p q 0 = p := by
  unfold interpolatePoints
  ext <;> simp

theorem interpolate_one (p q : Point) : interpolatePoints p q 1 = q := by
  unfold interpolatePoints
  ext <;> dsimp <;> ring

theorem dist_interpolate (p q : Point) (s t : ℝ) :
    Emb.dist (interpolatePoints p q s) (interpolatePoints p q t)
      = |s - t| * Emb.dist p q := by
  unfold Emb.dist interpolatePoints
  rw [show (p.x + (q.x - p.x) * s - (p.x + (q.x - p.x) * t)) ^ 2
      + (p.y + (q.y - p.y) * s - (p.y + (q.y - p.y) * t)) ^ 2
      = (s - t) ^ 2 * ((p.x - q.x) ^ 2 + (p.y - q.y) ^ 2) by ring,
    Real.sqrt_mul (sq_nonneg _), Real.sqrt_sq_eq_abs]

theorem dist_point_interpolate (p q : Point) (t : ℝ) :
    Emb.dist p (interpolatePoints p q t) = |t| * Emb.dist p q := by
  have h := dist_interpolate p q 0 t
  rw [interpolate_zero] at h
  rw [h, zero_sub, abs_neg]

theorem dist_nonneg' (p q : Point) : 0 ≤ Emb.dist p q := Real.sqrt_nonneg _

theorem runSegment_ne_nil (L : ℝ) (c : ℕ) (hx : String) (p q : Point)
    (hL : 0 < L) : runSegment L c hx p q ≠ [] := by
  unfold runSegment
  dsimp only
  split
  · next hgt =>
    have hc : 0 < ⌈Emb.dist p q / L⌉₊ :=
      Nat.ceil_pos.mpr (div_pos (lt_trans hL hgt) hL)
    simp [List.range_eq_nil, Nat.pos_iff_ne_zero.mp hc]
  · simp

theorem runSegment_getLast (L : ℝ) (c : ℕ) (hx : String) (p q : Point)
    (hL : 0 < L) :
    (runSegment L c hx p q).getLast?.map (fun s => (s.x, s.y))
      = some (q.x, q.y) := by
  unfold runSegment
  dsimp only
  split
  · next hgt =>
    have hc : 0 < ⌈Emb.dist p q / L⌉₊ :=
      Nat.ceil_pos.mpr (div_pos (lt_trans hL hgt) hL)
    obtain ⟨m, hm⟩ : ∃ m, ⌈Emb.dist p q / L⌉₊ = m + 1 :=
      ⟨⌈Emb.dist p q / L⌉₊ - 1, (Nat.succ_pred_eq_of_pos hc).symm⟩
    rw [hm]
    rw [show List.range (m + 1) = List.range m ++ [m] from List.range_succ m]
    rw [List.map_append, List.getLast?_append_of_ne_nil _ (by simp)]
    have ht : (((m : ℕ) : ℝ) + 1) / (((m + 1 : ℕ) : ℝ)) = 1 := by
      push_cast
      field_simp
    simp only [List.map_cons, List.map_nil, List.getLast?_singleton,
      Option.map_some', ht, interpolate_one]
  · simp

theorem runSegment_chain (L : ℝ) (c : ℕ) (hx : String) (p q : Point)
    (hL : 0 < L) :
    List.Chain' (fun a b : Stitch => Emb.dist ⟨a.x, a.y⟩ ⟨b.x, b.y⟩ ≤ L)
      ({ x := p.x, y := p.y, type := StitchKind.stitch, colorIndex := c,
         hexColor := hx } :: runSegment L c hx p q) := by
  unfold runSegment
  dsimp only
  split
  · next hgt =>
    have hdpos : 0 < Emb.dist p q := lt_trans hL hgt
    have hnpos : 0 < ⌈Emb.dist p q / L⌉₊ :=
      Nat.ceil_pos.mpr (div_pos hdpos hL)
    obtain ⟨m, hm⟩ : ∃ m, ⌈Emb.dist p q / L⌉₊ = m + 1 :=
      ⟨⌈Emb.dist p q / L⌉₊ - 1, (Nat.succ_pred_eq_of_pos hnpos).symm⟩
    have hdn : Emb.dist p q / ((m : ℝ) + 1) ≤ L := by
      rw [div_le_iff (by positivity)]
      calc Emb.dist p q = Emb.dist p q / L * L := by field_simp
      _ ≤ ((m : ℝ) + 1) * L := by
          refine mul_le_mul_of_nonneg_right ?_ hL.le
          have := Nat.le_ceil (Emb.dist p q / L)
          rw [hm] at this
          push_cast at this
          linarith
      _ = L * ((m : ℝ) + 1) := by ring
    rw [hm, List.chain'_cons']
    constructor
    · intro y hy
      rw [List.range_succ_eq_map, List.map_cons, List.head?_cons,
        Option.mem_def, Option.some.injEq] at hy
      rw [← hy]
      show Emb.dist p (interpolatePoints p q _) ≤ L
      rw [dist_point_interpolate]
      have h01 : |(((0 : ℕ) : ℝ) + 1) / (((m + 1 : ℕ) : ℝ))|
          = 1 / ((m : ℝ) + 1) := by
        push_cast
        rw [abs_of_nonneg (by positivity)]
        norm_num
      rw [h01, one_div, inv_mul_eq_div]
      exact hdn
    · rw [List.chain'_map, List.chain'_range_succ]
      intro j hj
      show Emb.dist (interpolatePoints p q _) (interpolatePoints p q _) ≤ L
      rw [dist_interpolate]
      have habs : |(((j : ℕ) : ℝ) + 1) / (((m + 1 : ℕ) : ℝ))
          - (((j + 1 : ℕ) : ℝ) + 1) / (((m + 1 : ℕ) : ℝ))|
          = 1 / ((m : ℝ) + 1) := by
        push_cast
        rw [div_sub_div_same, show ((j : ℝ) + 1 - ((j : ℝ) + 1 + 1)) = -1
          by ring]
        rw [abs_div, abs_neg, abs_one, abs_of_nonneg (by positivity)]
      rw [habs, one_div, inv_mul_eq_div]
      exact hdn
  · next hle =>
    rw [List.chain'_cons']
    refine ⟨?_, List.chain'_singleton _⟩
    intro y hy
    rw [List.head?_cons, Option.mem_def, Option.some.injEq] at hy
    rw [← hy]
    show Emb.dist p q ≤ L
    exact le_of_not_lt hle

theorem getLast?_cons_ne {α : Type} (a : α) (l : List α) (h : l ≠ []) :
    (a :: l).getLast? = l.getLast? := by
  cases l with
  | nil => exact absurd rfl h
  | cons b t => exact List.getLast?_cons_cons

theorem runEmit_ne_nil (L : ℝ) (c : ℕ) (hx : String) (hL : 0 < L)
    (curr r0 : Point) (t : List Point) :
    runEmit L c hx curr (r0 :: t) ≠ [] := by
  unfold runEmit
  exact List.append_ne_nil_of_left_ne_nil (runSegment_ne_nil L c hx curr r0 hL) _

theorem runEmit_spec (L : ℝ) (c : ℕ) (hx : String) (hL : 0 < L) :
    ∀ (rest : List Point) (prev : Point),
      List.Chain' (fun a b : Stitch => Emb.dist ⟨a.x, a.y⟩ ⟨b.x, b.y⟩ ≤ L)
        ({ x := prev.x, y := prev.y, type := StitchKind.stitch,
           colorIndex := c, hexColor := hx } :: runEmit L c hx prev rest) ∧
      ({ x := prev.x, y := prev.y, type := StitchKind.stitch,
         colorIndex := c, hexColor := hx } ::
            runEmit L c hx prev rest).getLast?.map (fun s => (s.x, s.y))
        = some ((rest.getLastD prev).x, (rest.getLastD prev).y) := by
  intro rest
  induction rest with
  | nil =>
    intro prev
    refine ⟨List.chain'_singleton _, ?_⟩
    simp [runEmit]
  | cons curr rest' ih =>
    intro prev
    have hseg := runSegment_chain L c hx prev curr hL
    have hsegne := runSegment_ne_nil L c hx prev curr hL
    have hseglast := runSegment_getLast L c hx prev curr hL
    have hih := ih curr
    constructor
    · show List.Chain' _
        ((({ x := prev.x, y := prev.y, type := StitchKind.stitch,
             colorIndex := c, hexColor := hx } : Stitch) ::
          runSegment L c hx prev curr) ++ runEmit L c hx curr rest')
      rw [List.chain'_append]
      refine ⟨hseg, hih.1.tail, ?_⟩
      intro x hx2 y hy2
      rw [getLast?_cons_ne _ _ hsegne] at hx2
      rw [Option.mem_def] at hx2
      rw [hx2] at hseglast
      rw [Option.map_some', Option.some.injEq, Prod.mk.injEq] at hseglast
      have hhead := (List.chain'_cons'.mp hih.1).1 y hy2
      show Emb.dist ⟨x.x, x.y⟩ ⟨y.x, y.y⟩ ≤ L
      rw [hseglast.1, hseglast.2]
      exact hhead
    · rw [show runEmit L c hx prev (curr :: rest')
          = runSegment L c hx prev curr ++ runEmit L c hx curr rest'
          from rfl, ← List.cons_append]
      cases rest' with
      | nil =>
        rw [show runEmit L c hx curr [] = [] from rfl, List.append_nil,
          getLast?_cons_ne _ _ hsegne, hseglast]
        simp
      | cons r0 t =>
        have hene := runEmit_ne_nil L c hx hL curr r0 t
        rw [List.getLast?_append_of_ne_nil _ hene]
        have h2 := hih.2
        rw [getLast?_cons_ne _ _ hene] at h2
        rw [h2]
        simp only [List.getLastD_cons, List.getLastD_eq_getLast?,
          Option.some.injEq, Prod.mk.injEq]
        cases hgl : (r0 :: t).getLast? with
        | none => simp at hgl
        | some y => simp [hgl]

theorem cleanGo_length_le :
    ∀ (l : List Point) (last : Point), (cleanGo last l).length ≤ l.length := by
  intro l
  induction l with
  | nil => intro last; simp [cleanGo]
  | cons p rest ih =>
    intro last
    unfold cleanGo
    split
    · simpa using Nat.succ_le_succ (ih p)
    · exact le_trans (ih last) (Nat.le_succ _)

theorem cleanPath_length_le (path : List Point) :
    (cleanPath path).length ≤ path.length := by
  cases path with
  | nil => simp [cleanPath]
  | cons p rest =>
    unfold cleanPath
    simpa using Nat.succ_le_succ (cleanGo_length_le rest p)

/-- Claim C6: on every polyline whose cleaned form still has at least two
points, the running generator emits the first cleaned point first, its last
emission sits exactly on the last cleaned point, and every pair of
consecutive emitted stitches is at distance at most
max_stitch_length_mm (2.5 mm when that config value is non-positive) plus
10⁻⁶ — the bound holds exactly (without the float slack) in the real-number
model, each long segment being split into ceil (d / L) equal parts. -/
theorem c6_running_generator (path : List Point) (config : ProcessingConfig)
    (c : ℕ) (hx : String) (h2 : 2 ≤ (cleanPath path).length) :
    ((generateRunningStitches path config c hx).head?.map
        (fun s => (s.x, s.y))
      = (cleanPath path).head?.map (fun p => (p.x, p.y))) ∧
    ((generateRunningStitches path config c hx).getLast?.map
        (fun s => (s.x, s.y))
      = (cleanPath path).getLast?.map (fun p => (p.x, p.y))) ∧
    List.Chain' (fun a b : Stitch =>
        Emb.dist ⟨a.x, a.y⟩ ⟨b.x, b.y⟩ ≤ maxRunLen config + 1 / 1000000)
      (generateRunningStitches path config c hx) := by
  have hL : 0 < maxRunLen config := by
    unfold maxRunLen
    split
    · assumption
    · norm_num
  have hpl : ¬ path.length < 2 := by
    intro hlt
    have := cleanPath_length_le path
    omega
  unfold generateRunningStitches
  rw [if_neg hpl]
  cases hcp : cleanPath path with
  | nil => rw [hcp] at h2; simp at h2
  | cons c0 ct =>
    cases ct with
    | nil => rw [hcp] at h2; simp at h2
    | cons c1 rest =>
      have hspec := runEmit_spec (maxRunLen config) c hx hL (c1 :: rest) c0
      refine ⟨by simp, ?_, ?_⟩
      · rw [hspec.2]
        cases hgl : (c1 :: rest).getLast? with
        | none => simp at hgl
        | some y =>
          rw [List.getLastD_eq_getLast?, hgl]
          rw [getLast?_cons_ne _ _ (by simp), hgl]
          simp
      · exact hspec.1.imp (fun a b h => le_trans h (by linarith))

/-- Witness for claim C6 on the two-point path (0,0)-(2,0) with the default
configuration. -/
theorem c6_running_generator_witness :
    2 ≤ (cleanPath [(⟨0, 0⟩ : Point), ⟨2, 0⟩]).length ∧
    (((generateRunningStitches [(⟨0, 0⟩ : Point), ⟨2, 0⟩] {} 0 "").head?.map
        (fun s => (s.x, s.y)))
      = ((cleanPath [(⟨0, 0⟩ : Point), ⟨2, 0⟩]).head?.map
          (fun p => (p.x, p.y))) ∧
    ((generateRunningStitches [(⟨0, 0⟩ : Point), ⟨2, 0⟩] {} 0 "").getLast?.map
        (fun s => (s.x, s.y)))
      = ((cleanPath [(⟨0, 0⟩ : Point), ⟨2, 0⟩]).getLast?.map
          (fun p => (p.x, p.y))) ∧
    List.Chain' (fun a b : Stitch =>
        Emb.dist ⟨a.x, a.y⟩ ⟨b.x, b.y⟩ ≤ maxRunLen {} + 1 / 1000000)
      (generateRunningStitches [(⟨0, 0⟩ : Point), ⟨2, 0⟩] {} 0 "")) := by
  have h2 : 2 ≤ (cleanPath [(⟨0, 0⟩ : Point), ⟨2, 0⟩]).length := by
    simp only [cleanPath, cleanGo, dist_same_y]
    norm_num
  exact ⟨h2, c6_running_generator [(⟨0, 0⟩ : Point), ⟨2, 0⟩] {} 0 "" h2⟩

/-! ## Claim C7 — the satin pair-separation bound -/

theorem rot_dot (a b : Point) :
    dotProduct ⟨-a.y, a.x⟩ ⟨-b.y, b.x⟩ = dotProduct a b := by
  unfold dotProduct
  dsimp
  ring

theorem nsq_rot (a : Point) : nsq (⟨-a.y, a.x⟩ : Point) = nsq a := by
  unfold nsq
  dsimp
  ring

theorem nsq_nonneg (p : Point) : 0 ≤ nsq p := by
  unfold nsq
  positivity

theorem normalize_zero_or_unit (p : Point) :
    Emb.normalize p = ⟨0, 0⟩ ∨ nsq (Emb.normalize p) = 1 := by
  unfold Emb.normalize
  dsimp only
  split
  · exact Or.inl rfl
  · next hlen =>
    right
    have hsq : Real.sqrt (p.x * p.x + p.y * p.y) ^ 2 = p.x * p.x + p.y * p.y :=
      Real.sq_sqrt (by nlinarith [sq_nonneg p.x, sq_nonneg p.y])
    have hne : p.x * p.x + p.y * p.y ≠ 0 := by
      intro h0
      exact hlen (by rw [h0, Real.sqrt_zero])
    unfold nsq
    dsimp
    field_simp
    nlinarith [hsq]

theorem nsq_normalize_le_one (p : Point) : nsq (Emb.normalize p) ≤ 1 := by
  rcases normalize_zero_or_unit p with h | h
  · rw [h]
    unfold nsq
    norm_num
  · rw [h]

theorem dot_sq_le (a b : Point) :
    (dotProduct a b) ^ 2 ≤ nsq a * nsq b := by
  unfold dotProduct nsq
  nlinarith [sq_nonneg (a.x * b.y - a.y * b.x)]

theorem dot_normalize_add_nonneg (v1 v2 : Point)
    (h1 : v1 = ⟨0, 0⟩ ∨ nsq v1 = 1) (h2 : nsq v2 ≤ 1) :
    0 ≤ dotProduct (Emb.normalize (addPoints v1 v2)) v1 := by
  rcases h1 with h1 | h1
  · rw [h1]
    unfold dotProduct
    dsimp
    ring_nf
    exact le_refl 0
  · unfold Emb.normalize addPoints
    dsimp only
    split
    · unfold dotProduct
      dsimp
      norm_num
    · unfold dotProduct
      dsimp
      rw [div_mul_eq_mul_div, div_mul_eq_mul_div, div_add_div_same]
      apply div_nonneg
      · have hcs := dot_sq_le v2 v1
        rw [h1] at hcs
        have habs : (dotProduct v2 v1) ^ 2 ≤ nsq v2 := by simpa using hcs
        have hd1 : -1 ≤ dotProduct v2 v1 := by nlinarith
        unfold dotProduct at hd1
        unfold nsq at h1
        nlinarith
      · exact Real.sqrt_nonneg _


/-- Evaluation helper: the distance between two points whose squared
coordinate differences sum to a perfect square. -/
theorem dist_eval (p q : Point) (k : ℝ) (hk : 0 ≤ k)
    (h : (p.x - q.x) ^ 2 + (p.y - q.y) ^ 2 = k ^ 2) : Emb.dist p q = k := by
  unfold Emb.dist
  rw [h, Real.sqrt_sq hk]

/-- Evaluation helper: normalization of a vector of known positive
length. -/
theorem normalize_eval (p : Point) (k : ℝ) (hk : 0 < k)
    (h : p.x * p.x + p.y * p.y = k ^ 2) :
    Emb.normalize p = ⟨p.x / k, p.y / k⟩ := by
  unfold Emb.normalize
  dsimp only
  rw [h, Real.sqrt_sq hk.le, if_neg (ne_of_gt hk)]

/-- The miter vector of satinMiter has squared norm at most one, and the
pre-clamp miter length is nonnegative, whenever the two tangents are
normalized vectors and the half width is nonnegative. -/
theorem satinMiter_props (v1 v2 : Point) (h : ℝ) (hh : 0 ≤ h)
    (h1 : v1 = ⟨0, 0⟩ ∨ nsq v1 = 1) (h2 : v2 = ⟨0, 0⟩ ∨ nsq v2 = 1) :
    nsq (satinMiter v1 v2 h).1 ≤ 1 ∧ 0 ≤ (satinMiter v1 v2 h).2 := by
  have hv1 : nsq v1 ≤ 1 := by
    rcases h1 with h1 | h1
    · rw [h1]; unfold nsq; norm_num
    · rw [h1]
  have hv2 : nsq v2 ≤ 1 := by
    rcases h2 with h2 | h2
    · rw [h2]; unfold nsq; norm_num
    · rw [h2]
  unfold satinMiter
  dsimp only
  split
  · constructor
    · rw [show (⟨-v1.y, v1.x⟩ : Point) = ⟨-v1.y, v1.x⟩ from rfl, nsq_rot]
      exact hv1
    · exact hh
  · have hdt : 0 ≤ dotProduct
        ⟨-(Emb.normalize (addPoints v1 v2)).y,
         (Emb.normalize (addPoints v1 v2)).x⟩ ⟨-v1.y, v1.x⟩ := by
      rw [rot_dot]
      exact dot_normalize_add_nonneg v1 v2 h1 hv2
    split
    · next hgt =>
      refine ⟨by rw [nsq_rot]; exact nsq_normalize_le_one _, ?_⟩
      have hpos : 0 < dotProduct
          ⟨-(Emb.normalize (addPoints v1 v2)).y,
           (Emb.normalize (addPoints v1 v2)).x⟩ ⟨-v1.y, v1.x⟩ := by
        rcases lt_or_eq_of_le hdt with hlt | heq
        · exact hlt
        · rw [← heq] at hgt
          norm_num at hgt
      exact div_nonneg hh hpos.le
    · exact ⟨by rw [nsq_rot]; exact nsq_normalize_le_one _, hh⟩

/-- The distance between symmetric offsets of a common center. -/
theorem dist_add_sub_scale (c v : Point) (s : ℝ) :
    Emb.dist (addPoints c (scalePoint v s)) (subPoints c (scalePoint v s))
      = 2 * |s| * Real.sqrt (nsq v) := by
  unfold Emb.dist addPoints subPoints scalePoint nsq
  dsimp only
  rw [show (c.x + v.x * s - (c.x - v.x * s)) ^ 2
        + (c.y + v.y * s - (c.y - v.y * s)) ^ 2
      = (2 * s) ^ 2 * (v.x ^ 2 + v.y ^ 2) by ring]
  rw [Real.sqrt_mul (sq_nonneg _), Real.sqrt_sq_eq_abs, abs_mul]
  rw [show |(2 : ℝ)| = 2 from abs_of_nonneg (by norm_num)]

/-- The clamped miter offset pair stays within six half widths. -/
theorem miter_clamp_dist (c v1 v2 : Point) (h : ℝ) (hh : 0 ≤ h)
    (h1 : v1 = ⟨0, 0⟩ ∨ nsq v1 = 1) (h2 : v2 = ⟨0, 0⟩ ∨ nsq v2 = 1) :
    Emb.dist
      (addPoints c (scalePoint (satinMiter v1 v2 h).1
        (if (satinMiter v1 v2 h).2 > h * 3.0 then h * 3.0
         else (satinMiter v1 v2 h).2)))
      (subPoints c (scalePoint (satinMiter v1 v2 h).1
        (if (satinMiter v1 v2 h).2 > h * 3.0 then h * 3.0
         else (satinMiter v1 v2 h).2)))
      ≤ 6 * h := by
  obtain ⟨hm1, hm2⟩ := satinMiter_props v1 v2 h hh h1 h2
  set mL := if (satinMiter v1 v2 h).2 > h * 3.0 then h * 3.0
    else (satinMiter v1 v2 h).2 with hmL
  have hL0 : 0 ≤ mL := by
    rw [hmL]
    split
    · nlinarith
    · exact hm2
  have hL3 : mL ≤ 3 * h := by
    rw [hmL]
    split
    · nlinarith
    · next hc =>
      push_neg at hc
      nlinarith
  rw [dist_add_sub_scale, abs_of_nonneg hL0]
  have hs : Real.sqrt (nsq (satinMiter v1 v2 h).1) ≤ 1 :=
    Real.sqrt_le_one.mpr hm1
  have hs0 : 0 ≤ Real.sqrt (nsq (satinMiter v1 v2 h).1) :=
    Real.sqrt_nonneg _
  nlinarith [mul_nonneg hL0 (sub_nonneg.mpr hs)]

/-- The two rail points produced at any index are at most six half widths
apart. -/
theorem satinRailAt_dist_le (r : List Point) (h : ℝ) (hh : 0 ≤ h) (i : ℕ) :
    Emb.dist (satinRailAt r h i).1 (satinRailAt r h i).2 ≤ 6 * h := by
  unfold satinRailAt
  dsimp only
  exact miter_clamp_dist _ _ _ h hh (normalize_zero_or_unit _)
    (normalize_zero_or_unit _)

/-- Interpolation from the other endpoint. -/
theorem interp_swap (p q : Point) (t : ℝ) :
    interpolatePoints q p t = interpolatePoints p q (1 - t) := by
  unfold interpolatePoints
  ext <;> dsimp <;> ring

/-- The short-stitch shortening never increases the distance of a rail
pair. -/
theorem satinPairAt_dist_le (L R : List Point) (i : ℕ) :
    Emb.dist (satinPairAt L R i).1 (satinPairAt L R i).2
      ≤ Emb.dist (L.getD i ⟨0, 0⟩) (R.getD i ⟨0, 0⟩) := by
  unfold satinPairAt
  dsimp only
  set p1 := L.getD i ⟨0, 0⟩ with hp1
  set p2 := R.getD i ⟨0, 0⟩ with hp2
  have key : ∀ s t : ℝ, |s - t| ≤ 1 →
      Emb.dist (interpolatePoints p1 p2 s) (interpolatePoints p1 p2 t)
        ≤ Emb.dist p1 p2 := by
    intro s t hst
    rw [dist_interpolate]
    nlinarith [dist_nonneg' p1 p2]
  split
  · split
    · dsimp only
      have h1 : Emb.dist (interpolatePoints p1 p2 0.3) p2
          = Emb.dist (interpolatePoints p1 p2 0.3)
              (interpolatePoints p1 p2 1) := by
        rw [interpolate_one]
      rw [h1]
      exact key 0.3 1 (by rw [abs_le]; constructor <;> norm_num)
    · split
      · dsimp only
        have h1 : Emb.dist p1 (interpolatePoints p2 p1 0.3)
            = Emb.dist (interpolatePoints p1 p2 0)
                (interpolatePoints p1 p2 0.7) := by
          rw [interpolate_zero, interp_swap]
          norm_num
        rw [h1]
        exact key 0 0.7 (by rw [abs_le]; constructor <;> norm_num)
      · exact le_refl _
  · exact le_refl _

/-- Reading an index below the bound out of a mapped range list. -/
theorem map_range_getD {α : Type} (n i : ℕ) (f : ℕ → α) (d : α)
    (hi : i < n) : ((List.range n).map f).getD i d = f i := by
  rw [List.getD_eq_getElem?_getD, List.getElem?_map, List.getElem?_range hi]
  rfl

/-- Claim C7, corrected: for every spine and configuration with
nonnegative half width h = satin_column_width_mm / 2 +
pull_compensation_mm / 2, every penetration pair produced by the satin
generator satisfies dist(left_i, right_i) ≤ 6·h. The spec's bound 3·h + ε
is wrong: the clamp bounds the miter length, which is half the pair span,
so pairs can reach nearly twice the spec's bound (the concrete
counterexample reaches 5.2·h). -/
theorem c7_amended_pair_bound (pathMm : List Point)
    (config : ProcessingConfig) (hh : 0 ≤ satinHalfWidth config) :
    ∀ pr ∈ satinPairs pathMm config,
      Emb.dist pr.1 pr.2 ≤ 6 * satinHalfWidth config := by
  intro pr hpr
  unfold satinPairs at hpr
  dsimp only at hpr
  rw [List.mem_map] at hpr
  obtain ⟨i, hi, rfl⟩ := hpr
  rw [List.mem_range] at hi
  refine le_trans (satinPairAt_dist_le _ _ i) ?_
  unfold satinLeftRail at hi
  unfold satinLeftRail satinRightRail
  rw [List.length_map, List.length_range] at hi
  rw [map_range_getD _ i _ _ hi, map_range_getD _ i _ _ hi]
  exact satinRailAt_dist_le _ _ hh i

/-- Witness for claim C7 at the concrete satin example. -/
theorem c7_amended_pair_bound_witness :
    0 ≤ satinHalfWidth c7cfg ∧
    ∀ pr ∈ satinPairs c7path c7cfg,
      Emb.dist pr.1 pr.2 ≤ 6 * satinHalfWidth c7cfg :=
  ⟨by norm_num [satinHalfWidth, c7cfg],
   c7_amended_pair_bound c7path c7cfg
     (by norm_num [satinHalfWidth, c7cfg])⟩

/-- One emitting step of the resampling loop. -/
theorem resampleGo_emit (spacing : ℝ) (fuel : ℕ) (prev curr : Point)
    (acc : ℝ) (rest : List Point)
    (h : acc + Emb.dist prev curr ≥ spacing) :
    resampleGo spacing (fuel + 1) prev acc (curr :: rest) =
      interpolatePoints prev curr ((spacing - acc) / Emb.dist prev curr) ::
        resampleGo spacing fuel
          (interpolatePoints prev curr ((spacing - acc) / Emb.dist prev curr))
          0 (curr :: rest) := by
  simp only [resampleGo]
  rw [if_pos h]

/-- One skipping step of the resampling loop. -/
theorem resampleGo_skip (spacing : ℝ) (fuel : ℕ) (prev curr : Point)
    (acc : ℝ) (rest : List Point)
    (h : ¬ acc + Emb.dist prev curr ≥ spacing) :
    resampleGo spacing (fuel + 1) prev acc (curr :: rest) =
      resampleGo spacing fuel curr (acc + Emb.dist prev curr) rest := by
  simp only [resampleGo]
  rw [if_neg h]

/-- The resampling loop stops on an exhausted input. -/
theorem resampleGo_nil (spacing : ℝ) (fuel : ℕ) (prev : Point) (acc : ℝ) :
    resampleGo spacing (fuel + 1) prev acc [] = [] := by
  simp only [resampleGo]

/-- Counterexample to claim C7 as stated: on the concrete satin spine with
half width h = 1 the middle penetration pair is 26/5 = 5.2 mm apart,
exceeding 3·h + 1 — the spec's 3·h miter limit with a full extra
millimetre of slack. -/
theorem c7_counterexample :
    ∃ pr ∈ satinPairs c7path c7cfg,
      Emb.dist pr.1 pr.2 > 3 * satinHalfWidth c7cfg + 1 := by
  have hd01 : Emb.dist c7p0 c7p1 = 1 := by
    apply dist_eval _ _ 1 (by norm_num)
    norm_num [c7p0, c7p1]
  have hd12 : Emb.dist c7p1 c7p2 = 1 := by
    apply dist_eval _ _ 1 (by norm_num)
    norm_num [c7p1, c7p2]
  have hself : ∀ p : Point, Emb.dist p p = 0 := by
    intro p
    apply dist_eval _ _ 0 le_rfl
    norm_num
  have e1 : resampleGo 1 6 c7p0 0 [c7p1, c7p2]
      = c7p1 :: resampleGo 1 5 c7p1 0 [c7p1, c7p2] := by
    have h := resampleGo_emit 1 5 c7p0 c7p1 0 [c7p2] (by rw [hd01]; norm_num)
    rw [hd01] at h
    norm_num [interpolate_one] at h
    exact h
  have e2 : resampleGo 1 5 c7p1 0 [c7p1, c7p2]
      = resampleGo 1 4 c7p1 0 [c7p2] := by
    have h := resampleGo_skip 1 4 c7p1 c7p1 0 [c7p2]
      (by rw [hself]; norm_num)
    rw [hself] at h
    norm_num at h
    exact h
  have e3 : resampleGo 1 4 c7p1 0 [c7p2]
      = c7p2 :: resampleGo 1 3 c7p2 0 [c7p2] := by
    have h := resampleGo_emit 1 3 c7p1 c7p2 0 [] (by rw [hd12]; norm_num)
    rw [hd12] at h
    norm_num [interpolate_one] at h
    exact h
  have e4 : resampleGo 1 3 c7p2 0 [c7p2]
      = resampleGo 1 2 c7p2 0 [] := by
    have h := resampleGo_skip 1 2 c7p2 c7p2 0 []
      (by rw [hself]; norm_num)
    rw [hself] at h
    norm_num at h
    exact h
  have e5 : resampleGo 1 2 c7p2 0 [] = [] := resampleGo_nil 1 1 c7p2 0
  have hres : resamplePath c7path 1 = [c7p0, c7p1, c7p2, c7p2] := by
    rw [show c7path = [c7p0, c7p1, c7p2] from rfl]
    unfold resamplePath
    rw [if_neg (by norm_num)]
    dsimp only
    rw [show pathLen [c7p0, c7p1, c7p2] = 2 from by
      simp only [pathLen]
      rw [hd01, hd12]
      norm_num]
    norm_num
    rw [e1, e2, e3, e4, e5]
    rfl
  have hv1 : Emb.normalize (⟨5 / 13, 12 / 13⟩ : Point) = ⟨5 / 13, 12 / 13⟩ := by
    rw [normalize_eval _ 1 one_pos (by norm_num)]
    ext <;> norm_num
  have hv2 : Emb.normalize (⟨5 / 13, -(12 / 13)⟩ : Point)
      = ⟨5 / 13, -(12 / 13)⟩ := by
    rw [normalize_eval _ 1 one_pos (by norm_num)]
    ext <;> norm_num
  have hvb : Emb.normalize (⟨10 / 13, 0⟩ : Point) = ⟨1, 0⟩ := by
    rw [normalize_eval _ (10 / 13) (by norm_num) (by norm_num)]
    ext <;> norm_num
  have hvb2 : Emb.normalize (⟨10 / 13, 24 / 13⟩ : Point)
      = ⟨5 / 13, 12 / 13⟩ := by
    rw [normalize_eval _ 2 (by norm_num) (by norm_num)]
    ext <;> norm_num
  have hm1 : satinMiter ⟨5 / 13, 12 / 13⟩ ⟨5 / 13, -(12 / 13)⟩ 1
      = (⟨0, 1⟩, 13 / 5) := by
    unfold satinMiter
    dsimp only
    rw [show addPoints (⟨5 / 13, 12 / 13⟩ : Point) ⟨5 / 13, -(12 / 13)⟩
        = ⟨10 / 13, 0⟩ from by ext <;> norm_num [addPoints]]
    dsimp only
    rw [show Real.sqrt ((10 : ℝ) / 13 * (10 / 13) + 0 * 0) = 10 / 13 from by
      rw [show ((10 : ℝ) / 13 * (10 / 13) + 0 * 0) = (10 / 13) ^ 2 by ring]
      exact Real.sqrt_sq (by norm_num)]
    rw [if_neg (by norm_num), hvb]
    dsimp only
    rw [show dotProduct (⟨-0, 1⟩ : Point) ⟨-(12 / 13), 5 / 13⟩ = 5 / 13
        from by norm_num [dotProduct]]
    rw [if_pos (show |(5 : ℝ) / 13| > 0.1 from by
      rw [abs_of_nonneg (by norm_num : (0 : ℝ) ≤ 5 / 13)]
      norm_num)]
    norm_num [Prod.ext_iff, Point.ext_iff]
  have hm0 : satinMiter ⟨5 / 13, 12 / 13⟩ ⟨5 / 13, 12 / 13⟩ 1
      = (⟨-(12 / 13), 5 / 13⟩, 1) := by
    unfold satinMiter
    dsimp only
    rw [show addPoints (⟨5 / 13, 12 / 13⟩ : Point) ⟨5 / 13, 12 / 13⟩
        = ⟨10 / 13, 24 / 13⟩ from by ext <;> norm_num [addPoints]]
    dsimp only
    rw [show Real.sqrt ((10 : ℝ) / 13 * (10 / 13) + 24 / 13 * (24 / 13))
        = 2 from by
      rw [show ((10 : ℝ) / 13 * (10 / 13) + 24 / 13 * (24 / 13))
          = (2 : ℝ) ^ 2 by ring]
      exact Real.sqrt_sq (by norm_num)]
    rw [if_neg (by norm_num), hvb2]
    dsimp only
    rw [show dotProduct (⟨-(12 / 13), 5 / 13⟩ : Point) ⟨-(12 / 13), 5 / 13⟩
        = 1 from by norm_num [dotProduct]]
    rw [if_pos (show |(1 : ℝ)| > 0.1 from by
      rw [abs_one]
      norm_num)]
    norm_num [Prod.ext_iff, Point.ext_iff]
  have hr1 : satinRailAt [c7p0, c7p1, c7p2, c7p2] 1 1
      = (⟨5 / 13, 12 / 13 + 13 / 5⟩, ⟨5 / 13, 12 / 13 - 13 / 5⟩) := by
    unfold satinRailAt
    dsimp only
    rw [show ([c7p0, c7p1, c7p2, c7p2] : List Point).getD 1 ⟨0, 0⟩ = c7p1
        from rfl]
    rw [if_pos (by norm_num : (0 : ℕ) < 1)]
    rw [show (1 : ℕ) - 1 = 0 from rfl]
    rw [show ([c7p0, c7p1, c7p2, c7p2] : List Point).getD 0 ⟨0, 0⟩ = c7p0
        from rfl]
    rw [if_pos (by norm_num :
      1 < ([c7p0, c7p1, c7p2, c7p2] : List Point).length - 1)]
    rw [show (1 : ℕ) + 1 = 2 from rfl]
    rw [show ([c7p0, c7p1, c7p2, c7p2] : List Point).getD 2 ⟨0, 0⟩ = c7p2
        from rfl]
    rw [show subPoints c7p1 c7p0 = ⟨5 / 13, 12 / 13⟩ from by
      ext <;> norm_num [subPoints, c7p0, c7p1]]
    rw [show subPoints c7p2 c7p1 = ⟨5 / 13, -(12 / 13)⟩ from by
      ext <;> norm_num [subPoints, c7p1, c7p2]]
    rw [hv1, hv2, hm1]
    dsimp only
    rw [if_neg (by norm_num : ¬ (13 : ℝ) / 5 > 1 * 3.0)]
    norm_num [Prod.ext_iff, Point.ext_iff, addPoints, subPoints,
      scalePoint, c7p1]
  have hr0 : satinRailAt [c7p0, c7p1, c7p2, c7p2] 1 0
      = (⟨-(12 / 13), 5 / 13⟩, ⟨12 / 13, -(5 / 13)⟩) := by
    unfold satinRailAt
    dsimp only
    rw [show ([c7p0, c7p1, c7p2, c7p2] : List Point).getD 0 ⟨0, 0⟩ = c7p0
        from rfl]
    rw [if_neg (by norm_num : ¬ (0 : ℕ) < 0)]
    rw [show (0 : ℕ) + 1 = 1 from rfl]
    rw [show ([c7p0, c7p1, c7p2, c7p2] : List Point).getD 1 ⟨0, 0⟩ = c7p1
        from rfl]
    rw [if_pos (by norm_num :
      0 < ([c7p0, c7p1, c7p2, c7p2] : List Point).length - 1)]
    rw [show subPoints c7p1 c7p0 = ⟨5 / 13, 12 / 13⟩ from by
      ext <;> norm_num [subPoints, c7p0, c7p1]]
    rw [show subPoints c7p0 (⟨5 / 13, 12 / 13⟩ : Point)
        = ⟨-(5 / 13), -(12 / 13)⟩ from by
      ext <;> norm_num [subPoints, c7p0]]
    rw [show subPoints c7p0 (⟨-(5 / 13), -(12 / 13)⟩ : Point)
        = ⟨5 / 13, 12 / 13⟩ from by
      ext <;> norm_num [subPoints, c7p0]]
    rw [hv1, hm0]
    dsimp only
    rw [if_neg (by norm_num : ¬ (1 : ℝ) > 1 * 3.0)]
    norm_num [Prod.ext_iff, Point.ext_iff, addPoints, subPoints,
      scalePoint, c7p0]
  have hhw : satinHalfWidth c7cfg = 1 := by
    norm_num [satinHalfWidth, c7cfg]
  have hgetL1 : (satinLeftRail [c7p0, c7p1, c7p2, c7p2] 1).getD 1 ⟨0, 0⟩
      = (satinRailAt [c7p0, c7p1, c7p2, c7p2] 1 1).1 := by
    unfold satinLeftRail
    exact map_range_getD _ 1 _ _ (by norm_num)
  have hgetL0 : (satinLeftRail [c7p0, c7p1, c7p2, c7p2] 1).getD 0 ⟨0, 0⟩
      = (satinRailAt [c7p0, c7p1, c7p2, c7p2] 1 0).1 := by
    unfold satinLeftRail
    exact map_range_getD _ 0 _ _ (by norm_num)
  have hgetR1 : (satinRightRail [c7p0, c7p1, c7p2, c7p2] 1).getD 1 ⟨0, 0⟩
      = (satinRailAt [c7p0, c7p1, c7p2, c7p2] 1 1).2 := by
    unfold satinRightRail
    exact map_range_getD _ 1 _ _ (by norm_num)
  have hgetR0 : (satinRightRail [c7p0, c7p1, c7p2, c7p2] 1).getD 0 ⟨0, 0⟩
      = (satinRailAt [c7p0, c7p1, c7p2, c7p2] 1 0).2 := by
    unfold satinRightRail
    exact map_range_getD _ 0 _ _ (by norm_num)
  have hpair1 : satinPairAt (satinLeftRail [c7p0, c7p1, c7p2, c7p2] 1)
      (satinRightRail [c7p0, c7p1, c7p2, c7p2] 1) 1
      = (⟨5 / 13, 12 / 13 + 13 / 5⟩, ⟨5 / 13, 12 / 13 - 13 / 5⟩) := by
    unfold satinPairAt
    dsimp only
    rw [if_pos (show (0 : ℕ) < 1 ∧ 1 % 2 ≠ 0 from by norm_num)]
    rw [show (1 : ℕ) - 1 = 0 from rfl]
    rw [hgetL1, hgetL0, hgetR1, hgetR0, hr1, hr0]
    dsimp only
    rw [show Emb.dist (⟨5 / 13, 12 / 13 + 13 / 5⟩ : Point)
        ⟨-(12 / 13), 5 / 13⟩ = 221 / 65 from
      dist_eval _ _ _ (by norm_num) (by norm_num)]
    rw [show Emb.dist (⟨5 / 13, 12 / 13 - 13 / 5⟩ : Point)
        ⟨12 / 13, -(5 / 13)⟩ = 91 / 65 from
      dist_eval _ _ _ (by norm_num) (by norm_num)]
    rw [if_neg (show ¬ ((221 : ℝ) / 65 < 91 / 65 * 0.6 ∧
        (221 : ℝ) / 65 < 0.4) from by
      rintro ⟨h1, _⟩
      norm_num at h1)]
    rw [if_neg (show ¬ ((91 : ℝ) / 65 < 221 / 65 * 0.6 ∧
        (91 : ℝ) / 65 < 0.4) from by
      rintro ⟨_, h2⟩
      norm_num at h2)]
  have hpairs : (satinPairs c7path c7cfg).getD 1 (⟨0, 0⟩, ⟨0, 0⟩)
      = (⟨5 / 13, 12 / 13 + 13 / 5⟩, ⟨5 / 13, 12 / 13 - 13 / 5⟩) := by
    unfold satinPairs
    dsimp only
    rw [show c7cfg.densityMm = (1 : ℝ) from rfl, hres, hhw]
    rw [map_range_getD _ 1 _ _ (by simp [satinLeftRail])]
    exact hpair1
  have hlen4 : 1 < (satinPairs c7path c7cfg).length := by
    unfold satinPairs
    dsimp only
    rw [show c7cfg.densityMm = (1 : ℝ) from rfl, hres]
    simp [satinLeftRail]
  refine ⟨(⟨5 / 13, 12 / 13 + 13 / 5⟩, ⟨5 / 13, 12 / 13 - 13 / 5⟩), ?_, ?_⟩
  · rw [← hpairs, List.getD_eq_getElem _ _ hlen4]
    exact List.getElem_mem hlen4
  · rw [hhw]
    dsimp only
    rw [show Emb.dist (⟨5 / 13, 12 / 13 + 13 / 5⟩ : Point)
        ⟨5 / 13, 12 / 13 - 13 / 5⟩ = 26 / 5 from
      dist_eval _ _ _ (by norm_num) (by norm_num)]
    norm_num

/-- The traced evaluation of the pipeline on the concrete two-dash
example: the full 17-record output, shared by the concrete instances of
claims C2, C3 and C8. -/
theorem exEval : digitizeDesign exLayers exCfg = exOut := by
  have hd02 : Emb.dist ⟨0, 0⟩ ⟨2, 0⟩ = 2 :=
    dist_eval _ _ _ (by norm_num) (by norm_num)
  have hd1012 : Emb.dist ⟨10, 0⟩ ⟨12, 0⟩ = 2 :=
    dist_eval _ _ _ (by norm_num) (by norm_num)
  have hL : maxRunLen exCfg = 2.5 := by
    unfold maxRunLen
    rw [show exCfg.maxStitchLengthMm = (0 : ℝ) from rfl]
    norm_num
  have hclean1 : cleanPath [(⟨0, 0⟩ : Point), ⟨2, 0⟩]
      = [⟨0, 0⟩, ⟨2, 0⟩] := by
    simp only [cleanPath, cleanGo]
    rw [if_pos (by rw [hd02]; norm_num)]
  have hclean2 : cleanPath [(⟨10, 0⟩ : Point), ⟨12, 0⟩]
      = [⟨10, 0⟩, ⟨12, 0⟩] := by
    simp only [cleanPath, cleanGo]
    rw [if_pos (by rw [hd1012]; norm_num)]
  have hrun1 : generateRunningStitches [(⟨0, 0⟩ : Point), ⟨2, 0⟩] exCfg 0 "c"
      = [⟨0, 0, StitchKind.stitch, 0, "c", false⟩,
         ⟨2, 0, StitchKind.stitch, 0, "c", false⟩] := by
    unfold generateRunningStitches
    rw [if_neg (by norm_num)]
    rw [hclean1]
    dsimp only
    rw [hL]
    simp only [runEmit]
    unfold runSegment
    dsimp only
    rw [hd02, if_neg (by norm_num : ¬ (2 : ℝ) > 2.5)]
    simp
  have hrun2 : generateRunningStitches
      [(⟨10, 0⟩ : Point), ⟨12, 0⟩] exCfg 0 "c"
      = [⟨10, 0, StitchKind.stitch, 0, "c", false⟩,
         ⟨12, 0, StitchKind.stitch, 0, "c", false⟩] := by
    unfold generateRunningStitches
    rw [if_neg (by norm_num)]
    rw [hclean2]
    dsimp only
    rw [hL]
    simp only [runEmit]
    unfold runSegment
    dsimp only
    rw [hd1012, if_neg (by norm_num : ¬ (2 : ℝ) > 2.5)]
    simp
  have htie1 : addTieOff (addTieIn
      [(⟨0, 0, StitchKind.stitch, 0, "c", false⟩ : Stitch),
       ⟨2, 0, StitchKind.stitch, 0, "c", false⟩]) = exM1 := by
    unfold addTieIn
    dsimp only
    rw [if_neg (by simp)]
    unfold addTieOff
    rw [show ([(⟨0 + 0.5, 0, StitchKind.stitch, 0, "c", true⟩ : Stitch),
        ⟨0, 0, StitchKind.stitch, 0, "c", true⟩,
        ⟨0, 0, StitchKind.stitch, 0, "c", false⟩,
        ⟨2, 0, StitchKind.stitch, 0, "c", false⟩] : List Stitch).getLast?
        = some ⟨2, 0, StitchKind.stitch, 0, "c", false⟩ from rfl]
    dsimp only
    rw [if_neg (by simp)]
    norm_num [exM1, Stitch.mk.injEq]
  have htie2 : addTieOff (addTieIn
      [(⟨10, 0, StitchKind.stitch, 0, "c", false⟩ : Stitch),
       ⟨12, 0, StitchKind.stitch, 0, "c", false⟩]) = exM2 := by
    unfold addTieIn
    dsimp only
    rw [if_neg (by simp)]
    unfold addTieOff
    rw [show ([(⟨10 + 0.5, 0, StitchKind.stitch, 0, "c", true⟩ : Stitch),
        ⟨10, 0, StitchKind.stitch, 0, "c", true⟩,
        ⟨10, 0, StitchKind.stitch, 0, "c", false⟩,
        ⟨12, 0, StitchKind.stitch, 0, "c", false⟩] : List Stitch).getLast?
        = some ⟨12, 0, StitchKind.stitch, 0, "c", false⟩ from rfl]
    dsimp only
    rw [if_neg (by simp)]
    norm_num [exM2, Stitch.mk.injEq]
  have hmain1 : mainStitches exCfg [(⟨0, 0⟩ : Point), ⟨2, 0⟩] 0 "c"
      = [⟨0, 0, StitchKind.stitch, 0, "c", false⟩,
         ⟨2, 0, StitchKind.stitch, 0, "c", false⟩] := by
    unfold mainStitches
    rw [show exCfg.stitchType = "running" from rfl]
    rw [if_neg (by decide), if_neg (by decide)]
    exact hrun1
  have hmain2 : mainStitches exCfg [(⟨10, 0⟩ : Point), ⟨12, 0⟩] 0 "c"
      = [⟨10, 0, StitchKind.stitch, 0, "c", false⟩,
         ⟨12, 0, StitchKind.stitch, 0, "c", false⟩] := by
    unfold mainStitches
    rw [show exCfg.stitchType = "running" from rfl]
    rw [if_neg (by decide), if_neg (by decide)]
    exact hrun2
  have hund : ∀ path : List Point, generateUnderlay path exCfg 0 "c" = [] := by
    intro path
    unfold generateUnderlay
    rw [if_pos (show exCfg.enableUnderlay = false from rfl)]
  have hstep1 : digitizePath exCfg 0 "c" [] [(⟨0, 0⟩ : Point), ⟨2, 0⟩]
      = exM1 := by
    unfold digitizePath
    dsimp only
    rw [hund, hmain1]
    rw [show pathUnderlayPart 0 "c" ([] : List Stitch) [] = [] from rfl]
    unfold pathMainPart
    rw [if_neg (by simp)]
    dsimp only
    rw [if_pos (show ([] : List Stitch).isEmpty = true from rfl)]
    rw [htie1]
    rw [show pathGlue exCfg 0 "c" ([] : List Stitch) exM1 = [] from by
      unfold pathGlue
      rw [if_pos (show ([] : List Stitch).isEmpty = true from rfl)]]
    simp
  have hstep2 : digitizePath exCfg 0 "c" exM1 [(⟨10, 0⟩ : Point), ⟨12, 0⟩]
      = exMid := by
    unfold digitizePath
    dsimp only
    rw [hund, hmain2]
    rw [show pathUnderlayPart 0 "c" exM1 [] = exM1 from rfl]
    unfold pathMainPart
    rw [if_neg (by simp)]
    dsimp only
    rw [if_pos (show ([] : List Stitch).isEmpty = true from rfl)]
    rw [htie2]
    rw [show pathGlue exCfg 0 "c" exM1 exM2
        = [⟨2, 0, StitchKind.trim, 0, "c", true⟩,
           ⟨10.5, 0, StitchKind.jump, 0, "c", true⟩] from by
      unfold pathGlue
      rw [if_neg (by simp [exM1])]
      rw [show exM1.getLast?
          = some ⟨2, 0, StitchKind.trim, 0, "c", true⟩ from rfl]
      rw [show exM2.head?
          = some ⟨10.5, 0, StitchKind.stitch, 0, "c", true⟩ from rfl]
      dsimp only
      rw [show exCfg.trimJumpDistanceMm = (2 : ℝ) from rfl]
      rw [show Emb.dist ⟨2, 0⟩ ⟨10.5, 0⟩ = 8.5 from
        dist_eval _ _ _ (by norm_num) (by norm_num)]
      rw [if_pos (by norm_num : (8.5 : ℝ) > 2)]]
    rfl
  have hlayer : digitizeLayer exCfg 0 exLayer = exMid := by
    unfold digitizeLayer
    rw [show exLayer.paths
        = [[(⟨0, 0⟩ : Point), ⟨2, 0⟩], [⟨10, 0⟩, ⟨12, 0⟩]] from rfl]
    rw [show exLayer.color = "c" from rfl]
    simp only [List.foldl]
    rw [hstep1, hstep2]
  have hall : digitizeAll exLayers exCfg = exMid := by
    unfold digitizeAll
    rw [show exLayers.enum = [(0, exLayer)] from rfl]
    simp only [List.foldl]
    unfold layerStep
    dsimp only
    rw [hlayer]
    rw [if_neg (by simp [exMid, exM1])]
    rw [if_pos (show ([] : List Stitch).isEmpty = true from rfl)]
    simp
  have hdA : Emb.dist ⟨1 / 2, 0⟩ ⟨0, 0⟩ = 1 / 2 :=
    dist_eval _ _ _ (by norm_num) (by norm_num)
  have hdB : Emb.dist ⟨0, 0⟩ ⟨0, 0⟩ = 0 :=
    dist_eval _ _ _ (by norm_num) (by norm_num)
  have hdD : Emb.dist ⟨2, 0⟩ ⟨3 / 2, 0⟩ = 1 / 2 :=
    dist_eval _ _ _ (by norm_num) (by norm_num)
  have hdE : Emb.dist ⟨3 / 2, 0⟩ ⟨2, 0⟩ = 1 / 2 :=
    dist_eval _ _ _ (by norm_num) (by norm_num)
  have hdF : Emb.dist ⟨21 / 2, 0⟩ ⟨21 / 2, 0⟩ = 0 :=
    dist_eval _ _ _ (by norm_num) (by norm_num)
  have hdG : Emb.dist ⟨21 / 2, 0⟩ ⟨10, 0⟩ = 1 / 2 :=
    dist_eval _ _ _ (by norm_num) (by norm_num)
  have hdH : Emb.dist ⟨10, 0⟩ ⟨10, 0⟩ = 0 :=
    dist_eval _ _ _ (by norm_num) (by norm_num)
  have hdJ : Emb.dist ⟨12, 0⟩ ⟨23 / 2, 0⟩ = 1 / 2 :=
    dist_eval _ _ _ (by norm_num) (by norm_num)
  have hdK : Emb.dist ⟨23 / 2, 0⟩ ⟨12, 0⟩ = 1 / 2 :=
    dist_eval _ _ _ (by norm_num) (by norm_num)
  have hsmall : removeSmallStitches exMid exCfg.minStitchLengthMm
      = exMid := by
    rw [show exCfg.minStitchLengthMm = (0.3 : ℝ) from rfl]
    simp only [exMid, exM1, exM2, List.cons_append, List.nil_append]
    unfold removeSmallStitches
    dsimp only
    norm_num [removeSmallGo, hdA, hdB, hd02, hdD, hdE, hdF, hdG, hdH,
      hd1012, hdJ, hdK,
      show (StitchKind.trim = StitchKind.stitch) = False from by simp,
      show (StitchKind.jump = StitchKind.stitch) = False from by simp]
  unfold digitizeDesign
  dsimp only
  rw [hall, hsmall]
  rw [show exMid.getLast?
      = some ⟨12, 0, StitchKind.trim, 0, "c", true⟩ from rfl]
  dsimp only
  rw [show exMid ++ [(⟨12, 0, StitchKind.ending, 0, "c", true⟩ : Stitch)]
      = exOut from rfl]

/-- Witness for claim C2 at the concrete two-dash example. -/
theorem c2_single_end_record_witness :
    digitizeDesign exLayers exCfg ≠ [] ∧
    (digitizeDesign exLayers exCfg).countP
        (fun s => decide (s.type = StitchKind.ending)) = 1 ∧
    (digitizeDesign exLayers exCfg).getLast?.map Stitch.type
      = some StitchKind.ending := by
  have h : digitizeDesign exLayers exCfg ≠ [] := by
    rw [exEval]
    simp [exOut]
  refine ⟨h, (c2_single_end_record exLayers exCfg h).1, ?_⟩
  rw [List.getLast?_eq_getLast _ h]
  simp [(c2_single_end_record exLayers exCfg h).2]

/-- Counterexample to claim C3 as stated: in the concrete two-dash run the
tie-off trim of the first dash is immediately followed by the glue trim of
the inter-path connection — a trim followed by another trim, which the
spec's successor discipline forbids. -/
theorem c3_counterexample :
    ¬ List.Chain'
        (fun a b : Stitch => a.type = StitchKind.trim →
          b.type = StitchKind.jump ∨ b.type = StitchKind.colorChange ∨
          b.type = StitchKind.ending)
        (digitizeDesign exLayers exCfg) := by
  rw [exEval]
  intro h
  simp only [exOut, List.chain'_cons, List.chain'_singleton, and_true] at h
  obtain ⟨-, -, -, -, -, -, h67, -⟩ := h
  have h7 := h67 trivial
  simp at h7

/-- The underlay generator is trivial when the underlay is disabled
(source: part_000 line 432). -/
theorem generateUnderlay_off (path : List Point) (c : ProcessingConfig)
    (i : ℕ) (col : String) (h : c.enableUnderlay = false) :
    generateUnderlay path c i col = [] := by
  unfold generateUnderlay
  rw [if_pos h]

/-- The main dispatch agrees on two running configurations with the same
substituted maximum run length. -/
theorem mainStitches_congr (c1 c2 : ProcessingConfig)
    (h1 : c1.stitchType = "running") (h2 : c2.stitchType = "running")
    (h : maxRunLen c1 = maxRunLen c2) :
    mainStitches c1 = mainStitches c2 := by
  funext path i col
  unfold mainStitches
  rw [h1, h2]
  rw [if_neg (by decide), if_neg (by decide), if_neg (by decide),
    if_neg (by decide)]
  unfold generateRunningStitches
  rw [h]

/-- The inter-path glue depends on its configuration only through the
trim-jump threshold. -/
theorem pathGlue_congr (c1 c2 : ProcessingConfig)
    (h : c1.trimJumpDistanceMm = c2.trimJumpDistanceMm) :
    pathGlue c1 = pathGlue c2 := by
  funext i col a b
  unfold pathGlue
  rw [h]

/-- One path iteration agrees on two underlay-free running configurations
with the same substituted maximum run length and trim threshold. -/
theorem digitizePath_congr (c1 c2 : ProcessingConfig)
    (h1 : c1.stitchType = "running") (h2 : c2.stitchType = "running")
    (h3 : c1.enableUnderlay = false) (h4 : c2.enableUnderlay = false)
    (h5 : maxRunLen c1 = maxRunLen c2)
    (h6 : c1.trimJumpDistanceMm = c2.trimJumpDistanceMm) :
    digitizePath c1 = digitizePath c2 := by
  funext i col x path
  unfold digitizePath
  dsimp only
  rw [generateUnderlay_off path c1 i col h3,
    generateUnderlay_off path c2 i col h4]
  rw [mainStitches_congr c1 c2 h1 h2 h5]
  unfold pathMainPart
  rw [pathGlue_congr c1 c2 h6]

/-- The layer composition agrees on two underlay-free running
configurations with the same substituted maximum run length and trim
threshold. -/
theorem digitizeAll_congr (layers : List VectorLayer)
    (c1 c2 : ProcessingConfig)
    (h1 : c1.stitchType = "running") (h2 : c2.stitchType = "running")
    (h3 : c1.enableUnderlay = false) (h4 : c2.enableUnderlay = false)
    (h5 : maxRunLen c1 = maxRunLen c2)
    (h6 : c1.trimJumpDistanceMm = c2.trimJumpDistanceMm) :
    digitizeAll layers c1 = digitizeAll layers c2 := by
  unfold digitizeAll
  have hstep : layerStep c1 = layerStep c2 := by
    funext acc il
    unfold layerStep
    dsimp only
    unfold digitizeLayer
    rw [digitizePath_congr c1 c2 h1 h2 h3 h4 h5 h6]
  rw [hstep]

/-- Claim C8, corrected: digitizeDesign performs no configuration
validation and surfaces no error — there is no ConfigOutOfRange check
anywhere in the pipeline. Instead, for the running stitch type without
underlay, out-of-range values are silently substituted away: the output
does not depend on the density at all, and a non-positive maximum stitch
length behaves exactly like the default 2.5 mm. -/
theorem c8_amended_no_validation (layers : List VectorLayer)
    (config : ProcessingConfig) (d : ℝ)
    (hrun : config.stitchType = "running")
    (hul : config.enableUnderlay = false)
    (hmax : config.maxStitchLengthMm ≤ 0) :
    digitizeDesign layers config =
      digitizeDesign layers
        { config with
            densityMm := d
            maxStitchLengthMm := 2.5 } := by
  have hml : maxRunLen config = maxRunLen
      { config with
          densityMm := d
          maxStitchLengthMm := 2.5 } := by
    unfold maxRunLen
    rw [show ({ config with
        densityMm := d
        maxStitchLengthMm := 2.5 } : ProcessingConfig).maxStitchLengthMm
      = (2.5 : ℝ) from rfl]
    rw [if_neg (not_lt.mpr hmax), if_pos (by norm_num)]
  have hall := digitizeAll_congr layers config
    { config with
        densityMm := d
        maxStitchLengthMm := 2.5 }
    hrun hrun hul hul hml rfl
  unfold digitizeDesign
  dsimp only
  rw [hall]

/-- Witness for claim C8 at the concrete out-of-range configuration. -/
theorem c8_amended_no_validation_witness :
    exCfg.stitchType = "running" ∧ exCfg.enableUnderlay = false ∧
    exCfg.maxStitchLengthMm ≤ 0 ∧
    digitizeDesign exLayers exCfg =
      digitizeDesign exLayers
        { exCfg with
            densityMm := 0.4
            maxStitchLengthMm := 2.5 } :=
  ⟨rfl, rfl, by norm_num [exCfg],
   c8_amended_no_validation exLayers exCfg 0.4 rfl rfl
     (by norm_num [exCfg])⟩

/-- Counterexample to claim C8 as stated: the concrete configuration has
density −1 ≤ 0 and maximum stitch length 0 ≤ 0, yet the pipeline runs and
returns a 17-record stitch sequence instead of refusing with an error. -/
theorem c8_counterexample :
    exCfg.densityMm ≤ 0 ∧ exCfg.maxStitchLengthMm ≤ 0 ∧
    (digitizeDesign exLayers exCfg).length = 17 := by
  refine ⟨by norm_num [exCfg], by norm_num [exCfg], ?_⟩
  rw [exEval]
  rfl

/-- Reading below the last index is unaffected by dropping the last
element. -/
theorem getD_dropLast {α : Type} :
    ∀ (l : List α) (i : ℕ) (d : α), i < l.length - 1 →
      l.dropLast.getD i d = l.getD i d := by
  intro l
  induction l with
  | nil =>
    intro i d h
    simp at h
  | cons a t ih =>
    intro i d h
    cases t with
    | nil => simp at h
    | cons b t2 =>
      rw [List.dropLast_cons₂]
      cases i with
      | zero => rfl
      | succ j =>
        simp only [List.getD_cons_succ]
        apply ih
        simp only [List.length_cons] at h ⊢
        omega

/-- The candidate fold returns none only from the empty candidate list. -/
theorem foldl_scanStep_none :
    ∀ (l : List (ℕ × ℕ × ℝ)) (acc : Option (ℕ × ℕ × ℝ)),
      l.foldl scanStep acc = none → acc = none ∧ l = [] := by
  intro l
  induction l with
  | nil =>
    intro acc h
    exact ⟨h, rfl⟩
  | cons c t ih =>
    intro acc h
    simp only [List.foldl_cons] at h
    obtain ⟨h1, -⟩ := ih (scanStep acc c) h
    exfalso
    unfold scanStep at h1
    cases acc with
    | none => simp at h1
    | some b =>
      dsimp only at h1
      split at h1 <;> simp at h1

/-- The candidate fold returns its accumulator or a list member. -/
theorem foldl_scanStep_mem :
    ∀ (l : List (ℕ × ℕ × ℝ)) (acc : Option (ℕ × ℕ × ℝ))
      (c : ℕ × ℕ × ℝ),
      l.foldl scanStep acc = some c → acc = some c ∨ c ∈ l := by
  intro l
  induction l with
  | nil =>
    intro acc c h
    exact Or.inl h
  | cons a t ih =>
    intro acc c h
    simp only [List.foldl_cons] at h
    rcases ih (scanStep acc a) c h with h1 | h1
    · unfold scanStep at h1
      cases acc with
      | none =>
        dsimp only at h1
        rw [Option.some.injEq] at h1
        right
        exact h1 ▸ List.mem_cons_self a t
      | some b =>
        dsimp only at h1
        split at h1
        · rw [Option.some.injEq] at h1
          right
          exact h1 ▸ List.mem_cons_self a t
        · left
          exact h1
    · right
      exact List.mem_cons_of_mem a h1

/-- A best candidate names a valid polygon index and a vertex index below
the polygon's closing duplicate. -/
theorem optimizeScan_bounds (pos : Point) (remaining : List (List Point))
    (i v : ℕ) (dd : ℝ)
    (h : optimizeScan pos remaining = some (i, v, dd)) :
    i < remaining.length ∧ v < (remaining.getD i []).length - 1 := by
  unfold optimizeScan at h
  rcases foldl_scanStep_mem _ none _ h with h1 | h1
  · simp at h1
  · simp only [List.mem_join, List.mem_map, List.mem_range] at h1
    obtain ⟨inner, ⟨j, hj, rfl⟩, hmem⟩ := h1
    simp only [List.mem_map, List.mem_range] at hmem
    obtain ⟨w, hw, heq⟩ := hmem
    rw [Prod.mk.injEq, Prod.mk.injEq] at heq
    obtain ⟨rfl, rfl, -⟩ := heq
    exact ⟨hj, hw⟩

/-- With a polygon of at least two points among the remaining ones the
scan always finds a candidate. -/
theorem optimizeScan_isSome (pos : Point) (r0 : List Point)
    (rrest : List (List Point)) (h2 : 2 ≤ r0.length) :
    optimizeScan pos (r0 :: rrest) ≠ none := by
  intro hn
  unfold optimizeScan at hn
  obtain ⟨-, hnil⟩ := foldl_scanStep_none _ none hn
  rw [List.join_eq_nil_iff] at hnil
  have hpos : 0 < (r0 :: rrest).length := by simp
  have h0 := hnil _ (List.mem_map_of_mem _ (List.mem_range.mpr hpos))
  rw [List.map_eq_nil_iff, List.range_eq_nil] at h0
  rw [show ((r0 :: rrest).getD 0 []) = r0 from rfl] at h0
  omega

/-- The source's vertex scan and the spec's vertex scan agree: dropping
the closing duplicate visits exactly the indices the source visits. -/
theorem optimizeScan_eq_specScan (pos : Point)
    (remaining : List (List Point)) :
    specScan pos remaining = optimizeScan pos remaining := by
  unfold specScan optimizeScan
  congr 1
  congr 1
  apply List.map_congr_left
  intro i hi
  rw [List.length_dropLast]
  apply List.map_congr_left
  intro v hv
  rw [List.mem_range] at hv
  dsimp only
  rw [getD_dropLast _ _ _ hv]

/-- On a closed polygon the source rotation equals the spec rotation for
every vertex index below the closing duplicate. -/
theorem reorder_eq_specRotate (path : List Point) (v : ℕ)
    (h2 : 2 ≤ path.length) (hcl : path.head? = path.getLast?)
    (hv : v < path.length - 1) :
    reorderPolygonToStartAt path v = specRotate path v := by
  unfold reorderPolygonToStartAt specRotate
  dsimp only
  by_cases h0 : v = 0
  · subst h0
    rw [if_pos rfl, List.rotate_zero]
    obtain ⟨a, b, t, rfl⟩ : ∃ a b t, path = a :: b :: t := by
      cases path with
      | nil => simp at h2
      | cons a t1 =>
        cases t1 with
        | nil => simp at h2
        | cons b t2 => exact ⟨a, b, t2, rfl⟩
    rw [show (a :: b :: t).dropLast.headD ⟨0, 0⟩ = a from by
      rw [List.dropLast_cons₂]
      rfl]
    have hne : (a :: b :: t) ≠ [] := by simp
    have hcl' : some a = (a :: b :: t).getLast? := by simpa using hcl
    rw [List.getLast?_eq_getLast _ hne] at hcl'
    have ha : (a :: b :: t).getLast hne = a := (Option.some.inj hcl').symm
    conv_lhs => rw [← List.dropLast_append_getLast hne]
    rw [ha]
  · rw [if_neg h0]
    rw [show path.take (path.length - 1) = path.dropLast from
      (List.dropLast_eq_take path).symm]
    rw [show path.dropLast.drop v ++ path.dropLast.take v
        = path.dropLast.rotate v from
      (List.rotate_eq_drop_append_take (by
        rw [List.length_dropLast]
        omega)).symm]
    cases hh : (path.dropLast.rotate v).head? with
    | none =>
      exfalso
      rw [List.head?_eq_none_iff] at hh
      have := congrArg List.length hh
      rw [List.length_rotate, List.length_dropLast] at this
      simp at this
      omega
    | some r0 =>
      rw [show (path.dropLast.rotate v).headD ⟨0, 0⟩ = r0 from by
        rw [List.headD_eq_head?_getD, hh]
        rfl]

/-- The spec rotation of a polygon with at least two points is closed. -/
theorem specRotate_closed (path : List Point) (v : ℕ)
    (h2 : 2 ≤ path.length) :
    (specRotate path v).head? = (specRotate path v).getLast? := by
  unfold specRotate
  dsimp only
  obtain ⟨r0, t, hrt⟩ : ∃ r0 t, path.dropLast.rotate v = r0 :: t := by
    cases hr : path.dropLast.rotate v with
    | nil =>
      exfalso
      have := congrArg List.length hr
      rw [List.length_rotate, List.length_dropLast] at this
      simp at this
      omega
    | cons r0 t => exact ⟨r0, t, rfl⟩
  rw [hrt]
  rw [show (r0 :: t).headD ⟨0, 0⟩ = r0 from rfl]
  rw [show ((r0 :: t) ++ [r0]).head? = some r0 from rfl]
  rw [List.getLast?_concat]

/-- The sequencing loop equals the spec greedy on closed polygon lists,
and every emitted polygon is closed. -/
theorem optimizeGo_eq_specGo :
    ∀ (fuel : ℕ) (pos : Point) (remaining : List (List Point)),
      (∀ p ∈ remaining, 2 ≤ p.length ∧ p.head? = p.getLast?) →
      optimizeGo fuel pos remaining = specGo fuel pos remaining ∧
      ∀ q ∈ optimizeGo fuel pos remaining, q.head? = q.getLast? := by
  intro fuel
  induction fuel with
  | zero =>
    intro pos remaining hinv
    refine ⟨rfl, ?_⟩
    intro q hq
    simp [optimizeGo] at hq
  | succ fuel ih =>
    intro pos remaining hinv
    cases remaining with
    | nil =>
      refine ⟨rfl, ?_⟩
      intro q hq
      simp [optimizeGo] at hq
    | cons r0 rrest =>
      have h2 : 2 ≤ r0.length := (hinv r0 (List.mem_cons_self r0 rrest)).1
      cases hscan : optimizeScan pos (r0 :: rrest) with
      | none => exact absurd hscan (optimizeScan_isSome pos r0 rrest h2)
      | some best =>
        obtain ⟨i, v, dd⟩ := best
        obtain ⟨hi, hv⟩ := optimizeScan_bounds pos (r0 :: rrest) i v dd hscan
        have hmem : (r0 :: rrest).getD i [] ∈ r0 :: rrest := by
          rw [List.getD_eq_getElem _ _ hi]
          exact List.getElem_mem hi
        obtain ⟨hp2, hpcl⟩ := hinv _ hmem
        have hrr : reorderPolygonToStartAt ((r0 :: rrest).getD i []) v
            = specRotate ((r0 :: rrest).getD i []) v :=
          reorder_eq_specRotate _ v hp2 hpcl hv
        have hinv' : ∀ p ∈ (r0 :: rrest).eraseIdx i,
            2 ≤ p.length ∧ p.head? = p.getLast? := by
          intro p hp
          exact hinv p (List.mem_of_mem_eraseIdx hp)
        have hIH := ih
          ((specRotate ((r0 :: rrest).getD i []) v).getLastD ⟨0, 0⟩)
          ((r0 :: rrest).eraseIdx i) hinv'
        have heq : optimizeGo (fuel + 1) pos (r0 :: rrest)
            = specRotate ((r0 :: rrest).getD i []) v ::
              specGo fuel
                ((specRotate ((r0 :: rrest).getD i []) v).getLastD ⟨0, 0⟩)
                ((r0 :: rrest).eraseIdx i) := by
          simp only [optimizeGo]
          rw [hscan]
          dsimp only
          rw [hrr, hIH.1]
        have heq2 : specGo (fuel + 1) pos (r0 :: rrest)
            = specRotate ((r0 :: rrest).getD i []) v ::
              specGo fuel
                ((specRotate ((r0 :: rrest).getD i []) v).getLastD ⟨0, 0⟩)
                ((r0 :: rrest).eraseIdx i) := by
          simp only [specGo]
          rw [optimizeScan_eq_specScan, hscan]
        refine ⟨by rw [heq, heq2], ?_⟩
        intro q hq
        rw [heq] at hq
        rcases List.mem_cons.mp hq with rfl | hq2
        · exact specRotate_closed _ v hp2
        · rw [← hIH.1] at hq2
          exact hIH.2 q hq2

/-- Claim C9: on every list of closed polygons (at least two points, first
point equal to last) the nearest-join sequencer behaves exactly as the
spec's greedy describes — it repeatedly emits the remaining polygon
rotated (closing duplicate stripped and re-appended) so as to start at the
vertex with minimal squared distance to the current head, ties broken by
iteration order, the head starting at the origin and tracking each emitted
polygon's last point — and every emitted polygon is still closed. -/
theorem c9_nearest_join (paths : List (List Point))
    (hcl : ∀ p ∈ paths, 2 ≤ p.length ∧ p.head? = p.getLast?) :
    optimizePathSequence paths = specOptimize paths ∧
    ∀ q ∈ optimizePathSequence paths, q.head? = q.getLast? := by
  unfold optimizePathSequence specOptimize
  exact optimizeGo_eq_specGo paths.length ⟨0, 0⟩ paths hcl

/-- Witness for claim C9 at two concrete closed triangles. -/
theorem c9_nearest_join_witness :
    (∀ p ∈ c9paths, 2 ≤ p.length ∧ p.head? = p.getLast?) ∧
    (optimizePathSequence c9paths = specOptimize c9paths ∧
     ∀ q ∈ optimizePathSequence c9paths, q.head? = q.getLast?) :=
  ⟨by
    intro p hp
    simp only [c9paths, List.mem_cons] at hp
    rcases hp with rfl | rfl | hp
    · exact ⟨by norm_num, rfl⟩
    · exact ⟨by norm_num, rfl⟩
    · simp at hp,
   c9_nearest_join c9paths (by
    intro p hp
    simp only [c9paths, List.mem_cons] at hp
    rcases hp with rfl | rfl | hp
    · exact ⟨by norm_num, rfl⟩
    · exact ⟨by norm_num, rfl⟩
    · simp at hp)⟩
